import Mathlib

set_option maxRecDepth 4000

/-!
Verification of the task-master VS Code extension's CLI output reconciliation
layer, shallowly embedded in Lean.

JavaScript strings are modelled as lists of UTF-16 code units (`List Nat`),
which is the representation JS regexes and character classes actually operate
on (the emoji character class in the source splits astral characters into
surrogate code units).  Task ids are modelled as naturals per the data model;
subtask ids and dependency entries, which may be numbers or strings at
runtime, are modelled by the sum type `JSVal`.
-/

namespace TaskMaster

/-- A JS string as its sequence of UTF-16 code units. -/
abbrev JSStr := List Nat

/-- Code units of a (BMP-only) Lean string literal. -/
def strU (s : String) : JSStr := s.data.map Char.toNat

/-- A JS value that is either a number or a string
(`Subtask.id : string | number`, dependency entries `number | string`). -/
inductive JSVal where
  | num (n : Nat)
  | str (s : JSStr)
deriving DecidableEq, Repr

/-- `/^\d+$/` character test for one code unit. -/
def isDigitU (c : Nat) : Bool := 48 ≤ c && c ≤ 57

/-- `/^\d+$/.test(s)`: non-empty and all digits. -/
def isPureDigits (s : JSStr) : Bool := !s.isEmpty && s.all isDigitU

/-- `parseInt(s, 10)` on a pure-digit string. -/
def parseIntU (s : JSStr) : Nat := s.foldl (fun a c => a * 10 + (c - 48)) 0

/-- Decimal digit code units of a natural, most significant first; structural
recursion on a fuel argument (`n` needs at most `n + 1` digits). -/
def natToUnitsFuel : Nat → Nat → JSStr
  | 0, _ => []
  | fuel + 1, n =>
    if n < 10 then [48 + n] else natToUnitsFuel fuel (n / 10) ++ [48 + n % 10]

/-- `String(n)` for a natural number: its decimal digit code units. -/
def natToUnits (n : Nat) : JSStr := natToUnitsFuel (n + 1) n

/-- Subtask structure (src/types.ts). -/
structure Subtask where
  id : JSVal
  title : JSStr
  description : Option JSStr
  status : JSStr
  dependencies : Option (List JSVal)
  parentId : Nat
deriving DecidableEq, Repr

/-- Main task structure (src/types.ts).  `id` is a natural per the data
model; `status` is kept as a raw string so unknown statuses are representable. -/
structure Task where
  id : Nat
  title : JSStr
  description : JSStr
  details : Option JSStr
  priority : JSStr
  status : JSStr
  dependencies : Option (List JSVal)
  subtasks : Option (List Subtask)
  complexityScore : Option Int
  filePath : Option JSStr
deriving DecidableEq, Repr

/-! ## `fixStringDependencies` (src/utils/taskUtils.ts lines 12-59) -/

/-- One dependency entry: a string of pure digits becomes the parsed number,
anything else (including dotted subtask references) passes through. -/
def fixDep (d : JSVal) : JSVal :=
  match d with
  | .str s => if isPureDigits s then .num (parseIntU s) else .str s
  | .num n => .num n

/-- The per-subtask body of `fixStringDependencies`. -/
def fixSubtaskDeps (st : Subtask) : Subtask :=
  { st with dependencies := st.dependencies.map (fun l => l.map fixDep) }

/-- `fixStringDependencies`: map `fixDep` over every task-level and
subtask-level dependencies array (absent arrays stay absent). -/
def fixStringDependencies (tasks : List Task) : List Task :=
  tasks.map (fun t =>
    { t with
      dependencies := t.dependencies.map (fun l => l.map fixDep)
      subtasks := t.subtasks.map (fun l => l.map fixSubtaskDeps) })

/-! ## `fixSubtaskIds` (src/utils/taskUtils.ts lines 65-120) -/

/-- `s.split(".")` on code units (46 is the dot). -/
def splitDot : JSStr → List JSStr
  | [] => [[]]
  | c :: rest =>
    if c = 46 then [] :: splitDot rest
    else
      match splitDot rest with
      | h :: t => (c :: h) :: t
      | [] => [[c]]

/-- The per-subtask body of `fixSubtaskIds`: if the id is a string containing
a dot, whose split has exactly two parts and whose first part equals
`String(task.id)`, the id becomes `index + 1`; the Boolean reports whether the
subtask was changed (`taskChanged`/`hasChanges` in the source). -/
def fixOneSubtask (parentId : Nat) (index : Nat) (st : Subtask) : Subtask × Bool :=
  match st.id with
  | .str s =>
    if 46 ∈ s then
      let parts := splitDot s
      if parts.length = 2 ∧ parts.head? = some (natToUnits parentId) then
        ({ st with id := .num (index + 1) }, true)
      else (st, false)
    else (st, false)
  | .num _ => (st, false)

/-- `subtasks.map((subtask, index) => ...)` with explicit index threading. -/
def mapIdxFrom (f : Nat → α → β) : Nat → List α → List β
  | _, [] => []
  | i, a :: as => f i a :: mapIdxFrom f (i + 1) as

/-- The per-task body of `fixSubtaskIds`: processed subtasks plus the
`taskChanged` flag (true iff some subtask's id was rewritten). -/
def fixTask (t : Task) : Task × Bool :=
  match t.subtasks with
  | none => (t, false)
  | some subs =>
    let processed := mapIdxFrom (fixOneSubtask t.id) 0 subs
    ({ t with subtasks := some (processed.map Prod.fst) }, processed.any Prod.snd)

structure FixSubtaskResult where
  tasks : List Task
  hasChanges : Bool
  changedTasks : List Nat
deriving DecidableEq, Repr

/-- `fixSubtaskIds`: the mutable `hasChanges` flag is true iff some task's
`taskChanged` flag was set, and `changedTasks` collects `Number(task.id)` of
each changed task in input order. -/
def fixSubtaskIds (tasks : List Task) : FixSubtaskResult :=
  let results := tasks.map fixTask
  { tasks := results.map Prod.fst
    hasChanges := results.any Prod.snd
    changedTasks := (results.filter Prod.snd).map (fun r => r.1.id) }

/-! ## `mergeComplexityScores` (src/utils/taskUtils.ts lines 125-148) -/

structure TaskComplexityAnalysis where
  taskId : Nat
  complexityScore : Int
  recommendedSubtasks : Nat
  expansionPrompt : JSStr
  reasoning : JSStr
deriving DecidableEq, Repr

structure TaskComplexityReport where
  complexityAnalysis : List TaskComplexityAnalysis
deriving DecidableEq, Repr

/-- The `complexityMap` built by `forEach`/`Map.set`: later entries overwrite
earlier ones, so `get` returns the last analysis with the given taskId. -/
def complexityMapGet (l : List TaskComplexityAnalysis) (id : Nat) :
    Option TaskComplexityAnalysis :=
  l.reverse.find? (fun a => decide (a.taskId = id))

/-- `mergeComplexityScores`: null report returns the input; otherwise each
task with a map entry gains that entry's `complexityScore`. -/
def mergeComplexityScores (tasks : List Task)
    (report : Option TaskComplexityReport) : List Task :=
  match report with
  | none => tasks
  | some rep =>
    tasks.map (fun t =>
      match complexityMapGet rep.complexityAnalysis t.id with
      | some a => { t with complexityScore := some a.complexityScore }
      | none => t)

/-! ## `calculateStats` (src/utils/taskUtils.ts lines 153-237)

Percentages are modelled in `ℚ`; the code computes `(completed / total) * 100`
with the same guard `total > 0 ? ... : 0`. Note the nested subtask stats
object has no `review` field (src/types.ts `TaskStats`). -/

structure SubtaskStats where
  total : Nat
  completed : Nat
  inProgress : Nat
  pending : Nat
  blocked : Nat
  deferred : Nat
  cancelled : Nat
  completionPercentage : Rat
deriving DecidableEq, Repr

structure TaskStats where
  total : Nat
  completed : Nat
  inProgress : Nat
  pending : Nat
  blocked : Nat
  deferred : Nat
  cancelled : Nat
  review : Nat
  completionPercentage : Rat
  subtasks : SubtaskStats
deriving DecidableEq, Repr

/-- The task-level `switch (task.status)`. -/
def bumpTaskBucket (acc : TaskStats) (status : JSStr) : TaskStats :=
  if status = strU "done" then { acc with completed := acc.completed + 1 }
  else if status = strU "in-progress" then { acc with inProgress := acc.inProgress + 1 }
  else if status = strU "pending" then { acc with pending := acc.pending + 1 }
  else if status = strU "blocked" then { acc with blocked := acc.blocked + 1 }
  else if status = strU "deferred" then { acc with deferred := acc.deferred + 1 }
  else if status = strU "cancelled" then { acc with cancelled := acc.cancelled + 1 }
  else if status = strU "review" then { acc with review := acc.review + 1 }
  else acc

/-- The subtask-level `switch (subtask.status)` (no `review` case). -/
def bumpSubtaskBucket (acc : SubtaskStats) (status : JSStr) : SubtaskStats :=
  if status = strU "done" then { acc with completed := acc.completed + 1 }
  else if status = strU "in-progress" then { acc with inProgress := acc.inProgress + 1 }
  else if status = strU "pending" then { acc with pending := acc.pending + 1 }
  else if status = strU "blocked" then { acc with blocked := acc.blocked + 1 }
  else if status = strU "deferred" then { acc with deferred := acc.deferred + 1 }
  else if status = strU "cancelled" then { acc with cancelled := acc.cancelled + 1 }
  else acc

/-- The body of the inner `task.subtasks.forEach`. -/
def subStatsStep (a : TaskStats) (st : Subtask) : TaskStats :=
  { a with subtasks := bumpSubtaskBucket a.subtasks st.status }

/-- The body of `tasks.forEach`: bump the task bucket, then add the subtask
count and bump each subtask bucket. -/
def statsStep (acc : TaskStats) (t : Task) : TaskStats :=
  let acc1 := bumpTaskBucket acc t.status
  match t.subtasks with
  | none => acc1
  | some subs =>
    let acc2 :=
      { acc1 with subtasks := { acc1.subtasks with total := acc1.subtasks.total + subs.length } }
    subs.foldl subStatsStep acc2

def initialStats (total : Nat) : TaskStats :=
  { total := total, completed := 0, inProgress := 0, pending := 0, blocked := 0
    deferred := 0, cancelled := 0, review := 0, completionPercentage := 0
    subtasks :=
      { total := 0, completed := 0, inProgress := 0, pending := 0, blocked := 0
        deferred := 0, cancelled := 0, completionPercentage := 0 } }

/-- `calculateStats`. -/
def calculateStats (tasks : List Task) : TaskStats :=
  let s := tasks.foldl statsStep (initialStats tasks.length)
  let s1 :=
    { s with
      completionPercentage :=
        if tasks.length > 0 then (s.completed : Rat) / (tasks.length : Rat) * 100 else 0 }
  { s1 with
    subtasks :=
      { s1.subtasks with
        completionPercentage :=
          if s1.subtasks.total > 0 then
            (s1.subtasks.completed : Rat) / (s1.subtasks.total : Rat) * 100
          else 0 } }

/-- The seven `TaskStatus` values of src/types.ts. -/
def isTaskStatus (s : JSStr) : Bool :=
  s = strU "pending" || s = strU "in-progress" || s = strU "done" || s = strU "blocked" ||
    s = strU "deferred" || s = strU "cancelled" || s = strU "review"

/-! ## `cleanCliOutput` (src/utils/outputParser.ts)

`rawOutput.replace(/\x1b\[[0-9;]*m/g, "")`, then removal of the box-drawing
character class, then the emoji character class (whose astral members are,
without the `u` flag, the individual surrogate code units), then
`replace(/\s+/g, " ")`, then `trim()`. -/

/-- `[0-9;]`, the ANSI parameter bytes. -/
def isAnsiParamU (c : Nat) : Bool := (48 ≤ c && c ≤ 57) || c = 59

/-- After an ESC (27): match `\[[0-9;]*m` and return the remainder.  The
character class excludes `m`, so the greedy star never backtracks. -/
def ansiTail (l : JSStr) : Option JSStr :=
  match l with
  | 91 :: rest =>
    match rest.dropWhile isAnsiParamU with
    | 109 :: r => some r
    | _ => none
  | _ => none

/-- `replace(/\x1b\[[0-9;]*m/g, "")`: scan left to right; at each ESC try the
rest of the pattern; on success drop the match, otherwise keep the character.
Recursion is on a fuel argument (a successful match consumes a suffix, not the
tail); `l.length` fuel always suffices, since each step consumes at least one
character. -/
def ansiStripFuel : Nat → JSStr → JSStr
  | 0, l => l
  | _, [] => []
  | fuel + 1, c :: rest =>
    if c = 27 then
      match ansiTail rest with
      | some r => ansiStripFuel fuel r
      | none => 27 :: ansiStripFuel fuel rest
    else c :: ansiStripFuel fuel rest

def ansiStrip (l : JSStr) : JSStr := ansiStripFuel l.length l

/-- The box-drawing character class `[╭╮╰╯│─┌┐└┘├┤┬┴┼╰╮╯]`. -/
def isBoxU (c : Nat) : Bool :=
  c = 0x256D || c = 0x256E || c = 0x2570 || c = 0x256F || c = 0x2502 || c = 0x2500 ||
    c = 0x250C || c = 0x2510 || c = 0x2514 || c = 0x2518 || c = 0x251C || c = 0x2524 ||
    c = 0x252C || c = 0x2534 || c = 0x253C

/-- The emoji character class `[🏷️✅❌⚠️📋🔍]` as its UTF-16 code units
(surrogate halves for the astral characters, plus U+FE0F, U+2705, U+274C,
U+26A0). -/
def isEmojiU (c : Nat) : Bool :=
  c = 0xD83C || c = 0xDFF7 || c = 0xFE0F || c = 0x2705 || c = 0x274C || c = 0x26A0 ||
    c = 0xD83D || c = 0xDCCB || c = 0xDD0D

def boxStrip (l : JSStr) : JSStr := l.filter (fun c => !isBoxU c)

def emojiStrip (l : JSStr) : JSStr := l.filter (fun c => !isEmojiU c)

/-- JS `\s` (and the `trim()` set): whitespace and line terminators. -/
def isWsU (c : Nat) : Bool :=
  c = 9 || c = 10 || c = 11 || c = 12 || c = 13 || c = 32 || c = 160 || c = 5760 ||
    (8192 ≤ c && c ≤ 8202) || c = 8232 || c = 8233 || c = 8239 || c = 8287 ||
    c = 12288 || c = 65279

/-- `replace(/\s+/g, " ")`: each maximal whitespace run becomes one space.
`prevWs` records whether we are inside a run already replaced. -/
def collapseWsAux (prevWs : Bool) : JSStr → JSStr
  | [] => []
  | c :: rest =>
    if isWsU c then
      if prevWs then collapseWsAux true rest else 32 :: collapseWsAux true rest
    else c :: collapseWsAux false rest

def collapseWs (l : JSStr) : JSStr := collapseWsAux false l

def trimStartU (l : JSStr) : JSStr := l.dropWhile isWsU

def trimEndU (l : JSStr) : JSStr := (l.reverse.dropWhile isWsU).reverse

/-- `s.trim()`. -/
def trimU (l : JSStr) : JSStr := trimEndU (trimStartU l)

/-- `cleanCliOutput` (the `!rawOutput` guard returns `""` on the empty
string). -/
def cleanCliOutput (raw : JSStr) : JSStr :=
  if raw = [] then []
  else trimU (collapseWs (emojiStrip (boxStrip (ansiStrip raw))))

/-! ## `parseNextTaskOutput` (src/utils/outputParser.ts) -/

/-- `[\d.]`. -/
def isIdUnit (c : Nat) : Bool := (48 ≤ c && c ≤ 57) || c = 46

/-- Try the pattern `Next Task: #([\d.]+)` followed by a space and a dash at
the head of `l`; on success return the captured group.  The class `[\d.]`
excludes the space, so the greedy plus never backtracks: the capture is the
maximal run. -/
def tryNextTaskAt (l : JSStr) : Option JSStr :=
  let lit := strU "Next Task: #"
  if lit <+: l then
    let rest := l.drop lit.length
    let run := rest.takeWhile isIdUnit
    if run ≠ [] ∧ ((rest.drop run.length).take 2 = [32, 45]) then some run
    else none
  else none

/-- `rawOutput.match(...)`: first position where the pattern matches. -/
def findNextTaskMatch : JSStr → Option JSStr
  | [] => none
  | c :: rest =>
    match tryNextTaskAt (c :: rest) with
    | some g => some g
    | none => findNextTaskMatch rest

/-- The result's `id` field: a number for a task, the dotted string for a
subtask. -/
inductive NextTaskId where
  | taskId (n : Nat)
  | subId (s : JSStr)
deriving DecidableEq, Repr

structure NextTaskResult where
  success : Bool
  id : Option NextTaskId
  isSubtask : Option Bool
  message : Option JSStr
deriving DecidableEq, Repr

/-- `parseNextTaskOutput`. -/
def parseNextTaskOutput (raw : JSStr) : NextTaskResult :=
  if raw = [] then
    { success := false, id := none, isSubtask := none
      message := some (strU "No output received") }
  else
    match findNextTaskMatch raw with
    | none =>
      { success := false, id := none, isSubtask := none
        message := some (strU "No next task found") }
    | some g =>
      let isSub := 46 ∈ g
      { success := true
        id := some (if isSub then .subId g else .taskId (parseIntU g))
        isSubtask := some (decide isSub)
        message := none }

/-! ## `CLIService` (unnamed/part_014)

`refreshTasks` is guarded by the `isExecuting` flag: the synchronous prefix
(the guard check and, when free, the flag set and the start of the external
read) runs atomically under the JS run-to-completion model; the rest of the
body runs after an await and ends in the `finally` that clears the flag.
`inFlight` is a ghost count of refresh bodies currently between those two
points, and `invocations` a ghost count of started external reads. -/

structure CLIServiceState where
  isExecuting : Bool
  lastRefreshTime : Nat
  cachedData : Option (List Task)
  inFlight : Nat
  invocations : Nat
deriving DecidableEq, Repr

/-- The synchronous prefix of `refreshTasks` (part_014 lines 66-78): when
`isExecuting` is set the call returns `null` at once with no effect; otherwise
the flag is set and an external read starts. -/
def refreshTasksEntry (s : CLIServiceState) : Option Unit × CLIServiceState :=
  if s.isExecuting then (none, s)
  else
    (some (),
      { s with isExecuting := true, inFlight := s.inFlight + 1,
               invocations := s.invocations + 1 })

/-- Completion of a refresh body (part_014 lines 79-100): on success the
timestamp and data are updated; the `finally` clears the flag either way. -/
def refreshTasksComplete (s : CLIServiceState) (now : Nat)
    (result : Option (List Task)) : CLIServiceState :=
  { s with
    isExecuting := false
    inFlight := s.inFlight - 1
    lastRefreshTime := match result with | some _ => now | none => s.lastRefreshTime
    cachedData := match result with | some d => some d | none => s.cachedData }

def initialCLIState : CLIServiceState :=
  { isExecuting := false, lastRefreshTime := 0, cachedData := none
    inFlight := 0, invocations := 0 }

/-- Interleaving steps of the service: any number of `refreshTasks` calls and
completions of running bodies (a body can complete only while the flag it set
is still up, i.e. `isExecuting = true`). -/
inductive RefreshStep : CLIServiceState → CLIServiceState → Prop where
  | call (s : CLIServiceState) : RefreshStep s (refreshTasksEntry s).2
  | complete (s : CLIServiceState) (now : Nat) (result : Option (List Task)) :
      s.isExecuting = true → RefreshStep s (refreshTasksComplete s now result)

inductive CLIReachable : CLIServiceState → Prop where
  | init : CLIReachable initialCLIState
  | step {s s' : CLIServiceState} : CLIReachable s → RefreshStep s s' → CLIReachable s'

/-! ## `TaskCacheService.refreshTasksFromFile` (unnamed/part_011 lines 58-137) -/

structure TagServiceResult where
  currentTag : JSStr
  availableTags : List JSStr
deriving DecidableEq, Repr

structure TaskMasterResponse where
  tasks : List Task
  filter : JSStr
  stats : TaskStats
  version : JSStr
  versionName : JSStr
  currentTag : JSStr
  availableTags : List JSStr
deriving DecidableEq, Repr

structure TaskCacheState where
  cachedTasks : List Task
  cachedResponse : Option TaskMasterResponse
deriving DecidableEq, Repr

/-- The fallible external interactions of `refreshTasksFromFile`, in program
order.  `Except.error` models an exception caught by the enclosing try/catch;
`readComplexityReport` catches its own errors and returns `null`, so it is an
`Option`. -/
structure RefreshEnv where
  workspaceRoot : Option JSStr
  tagInfo : Except JSStr TagServiceResult
  tasksForTag : Except JSStr (List Task)
  tasksFileAccess : Except JSStr Unit
  complexityReport : Option TaskComplexityReport
deriving Repr

/-- The tail of the success path: complexity merge, response construction,
and the two cache assignments. -/
def finishRefresh (tagInfo : TagServiceResult) (report : Option TaskComplexityReport)
    (finalTasks : List Task) : Option TaskMasterResponse × TaskCacheState :=
  let tasksWithComplexity := mergeComplexityScores finalTasks report
  let response : TaskMasterResponse :=
    { tasks := tasksWithComplexity
      filter := strU "all"
      stats := calculateStats tasksWithComplexity
      version := strU "0.17.0"
      versionName := strU "task-master-ai"
      currentTag := tagInfo.currentTag
      availableTags := tagInfo.availableTags }
  (some response,
    { cachedResponse := some response, cachedTasks := response.tasks })

/-- `refreshTasksFromFile`: every thrown error lands in the catch, which
returns `null` without touching the two cache fields (they are assigned only
at the very end of the try block). -/
def refreshTasksFromFile (st : TaskCacheState) (env : RefreshEnv) :
    Option TaskMasterResponse × TaskCacheState :=
  match env.workspaceRoot with
  | none => (none, st)
  | some _ =>
    match env.tagInfo with
    | .error _ => (none, st)
    | .ok tagInfo =>
      match env.tasksForTag with
      | .error _ => (none, st)
      | .ok tasks =>
        let fixedTasks := fixStringDependencies tasks
        let subtaskFixResult := fixSubtaskIds fixedTasks
        let finalTasks := subtaskFixResult.tasks
        if subtaskFixResult.hasChanges then
          match env.tasksFileAccess with
          | .error _ => (none, st)
          | .ok _ => finishRefresh tagInfo env.complexityReport finalTasks
        else finishRefresh tagInfo env.complexityReport finalTasks

/-! ## `CLIService.getCurrentTag` (unnamed/part_014 lines 185-195) -/

structure TagEntry where
  name : JSStr
  description : JSStr
  current : Bool
  tasks : List Task
deriving DecidableEq, Repr

/-- `getCurrentTag` over the `tags` map, modelled as an association list in
key-insertion order (the for..in order for string keys).  The fallback is
`Object.keys(tasksData.tags)[0] || "master"`: the first key, with "master"
when there are no keys or the first key is the empty string (falsy). -/
def getCurrentTag (tags : List (JSStr × TagEntry)) : JSStr :=
  match tags.find? (fun p => p.2.current) with
  | some p => p.1
  | none =>
    match tags.head? with
    | some p => if p.1 = [] then strU "master" else p.1
    | none => strU "master"

/-! # Theorems -/

theorem parseIntU_append (xs : JSStr) (c : Nat) :
    parseIntU (xs ++ [c]) = parseIntU xs * 10 + (c - 48) := by
  simp [parseIntU, List.foldl_append]

theorem natToUnitsFuel_irrel :
    ∀ f₁ f₂ n, n < f₁ → n < f₂ → natToUnitsFuel f₁ n = natToUnitsFuel f₂ n := by
  intro f₁
  induction f₁ with
  | zero => intro f₂ n h₁; omega
  | succ f₁ ih =>
    intro f₂ n h₁ h₂
    match f₂, h₂ with
    | f₂ + 1, h₂ =>
      simp only [natToUnitsFuel]
      by_cases h10 : n < 10
      · simp [h10]
      · have hpos : 0 < n := by omega
        have hdiv : n / 10 < n := Nat.div_lt_self hpos (by omega)
        simp only [h10, if_false]
        rw [ih f₂ (n / 10) (by omega) (by omega)]

/-- `parseInt` inverts decimal printing: a pure-digit string holds the
equal-valued number. -/
theorem parseIntU_natToUnits (n : Nat) : parseIntU (natToUnits n) = n := by
  induction n using Nat.strong_induction_on with
  | _ n ih =>
    unfold natToUnits natToUnitsFuel
    by_cases h10 : n < 10
    · simp [h10, parseIntU]
    · have hpos : 0 < n := by omega
      have hdiv : n / 10 < n := Nat.div_lt_self hpos (by omega)
      simp only [h10, if_false]
      rw [natToUnitsFuel_irrel n (n / 10 + 1) (n / 10) (by omega) (by omega)]
      rw [parseIntU_append]
      have := ih (n / 10) hdiv
      unfold natToUnits at this
      rw [this]
      omega

/-! ## C2: `fixStringDependencies` -/

def depIsNum : JSVal → Bool
  | .num _ => true
  | .str _ => false

/-- Claim side: a task list with no string dependencies anywhere. -/
def noStringDeps (ts : List Task) : Bool :=
  ts.all (fun t =>
    (t.dependencies.getD []).all depIsNum &&
      (t.subtasks.getD []).all (fun st => (st.dependencies.getD []).all depIsNum))

theorem map_fixDep_of_allNum (l : List JSVal) (h : ∀ d ∈ l, depIsNum d = true) :
    l.map fixDep = l := by
  induction l with
  | nil => rfl
  | cons d rest ih =>
    have hd := h d (by simp)
    match d, hd with
    | .num n, _ =>
      simp only [List.map_cons]
      rw [ih (fun u hu => h u (List.mem_cons_of_mem _ hu))]
      rfl

theorem map_fixSubtaskDeps_id (l : List Subtask)
    (h : ∀ st ∈ l, ∀ d ∈ st.dependencies.getD [], depIsNum d = true) :
    l.map fixSubtaskDeps = l := by
  induction l with
  | nil => rfl
  | cons st rest ih =>
    simp only [List.map_cons]
    rw [ih (fun u hu => h u (List.mem_cons_of_mem st hu))]
    have hstd : st.dependencies.map (fun d => d.map fixDep) = st.dependencies := by
      cases hsd : st.dependencies with
      | none => rfl
      | some dl =>
        have h2 := h st (by simp)
        rw [hsd] at h2
        simp only [Option.getD_some] at h2
        simp [map_fixDep_of_allNum dl h2]
    simp [fixSubtaskDeps, hstd]

theorem isPureDigits_eq_false_of_dot {s : JSStr} (h : 46 ∈ s) :
    isPureDigits s = false := by
  have hall : s.all isDigitU = false := by
    rw [List.all_eq_false]
    exact ⟨46, h, by decide⟩
  simp [isPureDigits, hall]

/-- C2: every pure-digit string dependency entry becomes the equal-valued
number (`parseInt` inverts decimal printing), every entry containing a dot
stays the same string, numeric entries pass through, the transformation is
applied to every task-level and subtask-level dependencies array, and a task
list with no string dependencies is returned unchanged. -/
theorem fixStringDependencies_spec :
    (∀ s : JSStr, isPureDigits s = true → fixDep (.str s) = .num (parseIntU s)) ∧
    (∀ n : Nat, parseIntU (natToUnits n) = n) ∧
    (∀ s : JSStr, 46 ∈ s → fixDep (.str s) = .str s) ∧
    (∀ n : Nat, fixDep (.num n) = .num n) ∧
    (∀ (ts : List Task) (j : Nat) (t : Task), ts[j]? = some t →
      ∃ t', (fixStringDependencies ts)[j]? = some t' ∧
        t'.dependencies = t.dependencies.map (fun l => l.map fixDep) ∧
        t'.subtasks = t.subtasks.map (fun l => l.map fixSubtaskDeps)) ∧
    (∀ ts : List Task, noStringDeps ts = true → fixStringDependencies ts = ts) := by
  refine ⟨?_, parseIntU_natToUnits, ?_, ?_, ?_, ?_⟩
  · intro s h; simp [fixDep, h]
  · intro s h; simp [fixDep, isPureDigits_eq_false_of_dot h]
  · intro n; rfl
  · intro ts j t h
    refine ⟨{ t with
        dependencies := t.dependencies.map (fun l => l.map fixDep)
        subtasks := t.subtasks.map (fun l => l.map fixSubtaskDeps) }, ?_, rfl, rfl⟩
    simp [fixStringDependencies, List.getElem?_map, h]
  · intro ts h
    simp only [noStringDeps, List.all_eq_true, Bool.and_eq_true] at h
    unfold fixStringDependencies
    induction ts with
    | nil => rfl
    | cons t rest ih =>
      have ht := h t (by simp)
      have hrest : ∀ u ∈ rest, _ := fun u hu => h u (List.mem_cons_of_mem t hu)
      simp only [List.map_cons]
      rw [ih hrest]
      congr 1
      have hdeps : t.dependencies.map (fun l => l.map fixDep) = t.dependencies := by
        cases hd : t.dependencies with
        | none => rfl
        | some l =>
          have h1 := ht.1
          rw [hd] at h1
          simp only [Option.getD_some] at h1
          simp [map_fixDep_of_allNum l h1]
      have hsubs : t.subtasks.map (fun l => l.map fixSubtaskDeps) = t.subtasks := by
        cases hs : t.subtasks with
        | none => rfl
        | some l =>
          have hall := ht.2
          rw [hs] at hall
          simp only [Option.getD_some] at hall
          simp [map_fixSubtaskDeps_id l hall]
      rw [hdeps, hsubs]

def c2Task : Task :=
  { id := 7, title := strU "t", description := strU "d", details := none
    priority := strU "high", status := strU "pending"
    dependencies := some [.num 1, .num 2], subtasks := none
    complexityScore := none, filePath := none }

theorem fixStringDependencies_spec_witness :
    fixDep (.str (strU "42")) = .num (parseIntU (strU "42")) ∧
    fixDep (.str (strU "61.23")) = .str (strU "61.23") ∧
    fixStringDependencies [c2Task] = [c2Task] :=
  ⟨fixStringDependencies_spec.1 (strU "42") (by decide),
   fixStringDependencies_spec.2.2.1 (strU "61.23") (by decide),
   fixStringDependencies_spec.2.2.2.2.2 [c2Task] (by decide)⟩

/-! ## C3: `mergeComplexityScores` -/

theorem find?_eq_head?_filter (p : α → Bool) (l : List α) :
    l.find? p = (l.filter p).head? := by
  induction l with
  | nil => rfl
  | cons a rest ih =>
    cases hp : p a
    · rw [List.find?_cons_of_neg, List.filter_cons_of_neg, ih] <;> simp [hp]
    · rw [List.find?_cons_of_pos, List.filter_cons_of_pos] <;> simp [hp]

/-- Claim side: the last analysis in the report whose `taskId` is `id`. -/
def lastAnalysisFor (rep : TaskComplexityReport) (id : Nat) :
    Option TaskComplexityAnalysis :=
  (rep.complexityAnalysis.filter (fun a => decide (a.taskId = id))).getLast?

theorem complexityMapGet_eq_last (rep : TaskComplexityReport) (id : Nat) :
    complexityMapGet rep.complexityAnalysis id = lastAnalysisFor rep id := by
  unfold complexityMapGet lastAnalysisFor
  rw [find?_eq_head?_filter, List.filter_reverse, List.head?_reverse]

def c3Task : Task :=
  { id := 1, title := strU "t", description := strU "d", details := none
    priority := strU "high", status := strU "pending"
    dependencies := none, subtasks := none
    complexityScore := none, filePath := none }

def c3First : TaskComplexityAnalysis :=
  { taskId := 1, complexityScore := 3, recommendedSubtasks := 2
    expansionPrompt := strU "p", reasoning := strU "r" }

def c3Second : TaskComplexityAnalysis :=
  { taskId := 1, complexityScore := 5, recommendedSubtasks := 2
    expansionPrompt := strU "p", reasoning := strU "r" }

def c3Report : TaskComplexityReport := { complexityAnalysis := [c3First, c3Second] }

/-- C3 counterexample: `c3First` is an analysis of the report whose `taskId`
equals the task's id, yet the merged task's `complexityScore` is `c3Second`'s
score 5, not `c3First`'s score 3 — when a report holds two analyses for the
same taskId, the later one wins, so the claim's "equals that analysis's
complexityScore" fails for the earlier analysis. -/
theorem mergeComplexityScores_claim_counterexample :
    c3First ∈ c3Report.complexityAnalysis ∧ c3First.taskId = c3Task.id ∧
    c3First.complexityScore = 3 ∧
    mergeComplexityScores [c3Task] (some c3Report) =
      [{ c3Task with complexityScore := some 5 }] ∧
    ((5 : Int) ≠ (3 : Int)) := by
  refine ⟨by decide, by decide, by decide, by decide, by decide⟩

/-- C3 amended: a null report returns the input unchanged; a task matched by
the report gains the `complexityScore` of the **last** analysis with its
taskId; a task with no matching analysis is returned unchanged (its
`complexityScore` stays as it was, in particular undefined).  Mutation is not
representable in this embedding: the operation is a pure function of its
arguments. -/
theorem mergeComplexityScores_spec :
    (∀ ts : List Task, mergeComplexityScores ts none = ts) ∧
    (∀ (ts : List Task) (rep : TaskComplexityReport) (j : Nat) (t : Task),
      ts[j]? = some t →
      (∀ a, lastAnalysisFor rep t.id = some a →
        (mergeComplexityScores ts (some rep))[j]? =
          some { t with complexityScore := some a.complexityScore }) ∧
      (lastAnalysisFor rep t.id = none →
        (mergeComplexityScores ts (some rep))[j]? = some t)) := by
  refine ⟨fun ts => rfl, ?_⟩
  intro ts rep j t h
  constructor
  · intro a ha
    simp only [mergeComplexityScores, List.getElem?_map, h, Option.map_some']
    rw [complexityMapGet_eq_last, ha]
  · intro ha
    simp only [mergeComplexityScores, List.getElem?_map, h, Option.map_some']
    rw [complexityMapGet_eq_last, ha]

theorem mergeComplexityScores_spec_witness :
    mergeComplexityScores [c3Task] none = [c3Task] ∧
    (mergeComplexityScores [c3Task] (some c3Report))[0]? =
      some { c3Task with complexityScore := some c3Second.complexityScore } :=
  ⟨mergeComplexityScores_spec.1 [c3Task],
   ((mergeComplexityScores_spec.2 [c3Task] c3Report 0 c3Task (by decide)).1
      c3Second (by decide))⟩

/-! ## C9: `CLIService.getCurrentTag` -/

def c9Entry : TagEntry :=
  { name := strU "feature", description := strU "", current := false, tasks := [] }

/-- C9 counterexample: with zero `current: true` entries the fallback is the
*first key of the map*, not a fixed tag name — two all-false tag maps yield
two different defaults. -/
theorem getCurrentTag_claim_counterexample :
    getCurrentTag [(strU "feature", c9Entry)] = strU "feature" ∧
    getCurrentTag [(strU "other", c9Entry)] = strU "other" ∧
    strU "feature" ≠ strU "other" := by
  refine ⟨by decide, by decide, by decide⟩

theorem filter_singleton_find? (p : α → Bool) (l : List α) (a : α)
    (h : l.filter p = [a]) : l.find? p = some a := by
  rw [find?_eq_head?_filter, h]
  rfl

/-- C9 amended: with zero `current: true` entries the current tag defaults to
the first tag name in the map — or to the fixed name "master" only when the
map is empty (or its first key is the empty string, which is falsy); with
exactly one `current: true` entry, that entry's name is returned. -/
theorem getCurrentTag_spec (tags : List (JSStr × TagEntry)) :
    ((∀ q ∈ tags, q.2.current = false) →
      getCurrentTag tags =
        (match tags.head? with
         | some p => if p.1 = [] then strU "master" else p.1
         | none => strU "master")) ∧
    (∀ p, tags.filter (fun q => q.2.current) = [p] → getCurrentTag tags = p.1) := by
  constructor
  · intro h
    unfold getCurrentTag
    have hf : tags.find? (fun p => p.2.current) = none := by
      rw [List.find?_eq_none]
      intro x hx
      simp [h x hx]
    rw [hf]
  · intro p hp
    unfold getCurrentTag
    rw [filter_singleton_find? _ _ _ hp]

def c9Current : TagEntry :=
  { name := strU "work", description := strU "", current := true, tasks := [] }

theorem getCurrentTag_spec_witness :
    getCurrentTag [(strU "feature", c9Entry)] =
      (match ([(strU "feature", c9Entry)] : List (JSStr × TagEntry)).head? with
       | some p => if p.1 = [] then strU "master" else p.1
       | none => strU "master") ∧
    getCurrentTag [(strU "feature", c9Entry), (strU "work", c9Current)] =
      strU "work" :=
  ⟨(getCurrentTag_spec [(strU "feature", c9Entry)]).1 (by decide),
   (getCurrentTag_spec [(strU "feature", c9Entry), (strU "work", c9Current)]).2
      (strU "work", c9Current) (by decide)⟩

/-! ## C8: `TaskCacheService.refreshTasksFromFile` -/

/-- C8: whenever `refreshTasksFromFile` returns `null` — in particular on a
failing tag read or a failing tasks read (invalid JSON, missing keys, any
thrown error) — the cache entry (cached tasks and cached response) is exactly
its previous state. -/
theorem refreshTasksFromFile_error_preserves_cache :
    (∀ (st : TaskCacheState) (env : RefreshEnv),
      (refreshTasksFromFile st env).1 = none → (refreshTasksFromFile st env).2 = st) ∧
    (∀ (st : TaskCacheState) (env : RefreshEnv) (e : JSStr),
      env.tagInfo = .error e → refreshTasksFromFile st env = (none, st)) ∧
    (∀ (st : TaskCacheState) (env : RefreshEnv) (e : JSStr),
      env.tasksForTag = .error e → refreshTasksFromFile st env = (none, st)) := by
  refine ⟨?_, ?_, ?_⟩
  · intro st env h
    obtain ⟨wr, ti, tt, tf, cr⟩ := env
    unfold refreshTasksFromFile at h ⊢
    cases wr with
    | none => rfl
    | some root =>
      cases ti with
      | error e => rfl
      | ok tagInfo =>
        cases tt with
        | error e => rfl
        | ok tasks =>
          simp only at h ⊢
          by_cases hc : (fixSubtaskIds (fixStringDependencies tasks)).hasChanges = true
          · rw [if_pos hc] at h ⊢
            cases tf with
            | error e => rfl
            | ok u => exact absurd h (by simp [finishRefresh])
          · rw [if_neg hc] at h ⊢
            exact absurd h (by simp [finishRefresh])
  · intro st env e h
    obtain ⟨wr, ti, tt, tf, cr⟩ := env
    simp only at h
    subst h
    unfold refreshTasksFromFile
    cases wr with
    | none => rfl
    | some root => rfl
  · intro st env e h
    obtain ⟨wr, ti, tt, tf, cr⟩ := env
    simp only at h
    subst h
    unfold refreshTasksFromFile
    cases wr with
    | none => rfl
    | some root =>
      cases ti with
      | error e2 => rfl
      | ok tagInfo => rfl

def c8State : TaskCacheState :=
  { cachedTasks := [c3Task], cachedResponse := none }

def c8Env : RefreshEnv :=
  { workspaceRoot := some (strU "/w")
    tagInfo := .error (strU "Unexpected token in JSON")
    tasksForTag := .ok []
    tasksFileAccess := .ok ()
    complexityReport := none }

theorem refreshTasksFromFile_error_preserves_cache_witness :
    refreshTasksFromFile c8State c8Env = (none, c8State) ∧
    (refreshTasksFromFile c8State c8Env).2.cachedTasks = [c3Task] :=
  ⟨refreshTasksFromFile_error_preserves_cache.2.1 c8State c8Env
      (strU "Unexpected token in JSON") rfl,
   by
    rw [refreshTasksFromFile_error_preserves_cache.2.1 c8State c8Env
      (strU "Unexpected token in JSON") rfl]
    rfl⟩

/-! ## C7: `CLIService.refreshTasks` single flight -/

theorem cli_inflight_step {s s' : CLIServiceState} (hstep : RefreshStep s s')
    (ih : s.inFlight = (if s.isExecuting then 1 else 0)) :
    s'.inFlight = (if s'.isExecuting then 1 else 0) := by
  cases hstep with
  | call =>
    unfold refreshTasksEntry
    by_cases hx : s.isExecuting = true
    · rw [if_pos hx]
      exact ih
    · rw [if_neg hx]
      have h0 : s.inFlight = 0 := by simpa [hx] using ih
      simp [h0]
  | complete now result hx =>
    have h1 : s.inFlight = 1 := by simpa [hx] using ih
    unfold refreshTasksComplete
    simp [h1]

theorem cli_inflight_invariant {s : CLIServiceState} (h : CLIReachable s) :
    s.inFlight = (if s.isExecuting then 1 else 0) := by
  induction h with
  | init => rfl
  | step hr hstep ih => exact cli_inflight_step hstep ih

/-- C7: while a refresh is in flight (`isExecuting = true`), a second
`refreshTasks` call returns `null` immediately with the state — cached data,
last-refresh timestamp, and the counts of started external reads — completely
unchanged; and in every reachable state at most one refresh body is running,
so two overlapping requests produce exactly one in-flight external
invocation. -/
theorem refreshTasks_single_flight :
    (∀ s : CLIServiceState, s.isExecuting = true → refreshTasksEntry s = (none, s)) ∧
    (∀ s : CLIServiceState, CLIReachable s → s.inFlight ≤ 1) := by
  constructor
  · intro s h
    unfold refreshTasksEntry
    rw [h]
    simp
  · intro s h
    rw [cli_inflight_invariant h]
    split <;> omega

def c7Busy : CLIServiceState :=
  { isExecuting := true, lastRefreshTime := 5, cachedData := some [c3Task]
    inFlight := 1, invocations := 3 }

theorem refreshTasks_single_flight_witness :
    refreshTasksEntry c7Busy = (none, c7Busy) ∧ initialCLIState.inFlight ≤ 1 :=
  ⟨refreshTasks_single_flight.1 c7Busy rfl,
   refreshTasks_single_flight.2 initialCLIState CLIReachable.init⟩

/-! ## C6: `parseNextTaskOutput` -/

/-- C6: a dotted capture is classified as a subtask and kept as the full
dotted string, an undotted capture is parsed to an integer task id; the
concrete vectors behave as specified, and any input without a match — "No
next task found." or arbitrary garbage — fails with a non-empty message.  The
final clause shows the dot is the sole classification signal for every
matched input. -/
theorem parseNextTaskOutput_spec :
    parseNextTaskOutput (strU "xx Next Task: #13.2 - Display form yy") =
      { success := true, id := some (.subId (strU "13.2"))
        isSubtask := some true, message := none } ∧
    parseNextTaskOutput (strU "Next Task: #13 - Title") =
      { success := true, id := some (.taskId 13)
        isSubtask := some false, message := none } ∧
    (parseNextTaskOutput (strU "No next task found.")).success = false ∧
    (parseNextTaskOutput (strU "No next task found.")).message =
      some (strU "No next task found") ∧
    (parseNextTaskOutput (strU "garbage output with no recognizable task")).success
      = false ∧
    (parseNextTaskOutput (strU "garbage output with no recognizable task")).message
      = some (strU "No next task found") ∧
    strU "No next task found" ≠ [] ∧
    (∀ (raw g : JSStr), findNextTaskMatch raw = some g →
      (parseNextTaskOutput raw).success = true ∧
      (parseNextTaskOutput raw).isSubtask = some (decide (46 ∈ g)) ∧
      (parseNextTaskOutput raw).id =
        some (if 46 ∈ g then .subId g else .taskId (parseIntU g))) ∧
    (∀ raw : JSStr, findNextTaskMatch raw = none →
      (parseNextTaskOutput raw).success = false ∧
      ∃ m, (parseNextTaskOutput raw).message = some m ∧ m ≠ []) := by
  refine ⟨by decide, by decide, by decide, by decide, by decide, by decide, by decide,
    ?_, ?_⟩
  · intro raw g h
    have hne : raw ≠ [] := by
      intro he
      rw [he] at h
      exact Option.noConfusion h
    unfold parseNextTaskOutput
    rw [if_neg hne, h]
    exact ⟨rfl, rfl, rfl⟩
  · intro raw h
    unfold parseNextTaskOutput
    by_cases hne : raw = []
    · rw [if_pos hne]
      exact ⟨rfl, strU "No output received", rfl, by decide⟩
    · rw [if_neg hne, h]
      exact ⟨rfl, strU "No next task found", rfl, by decide⟩

theorem parseNextTaskOutput_spec_witness :
    (parseNextTaskOutput (strU "Next Task: #14.1 - Add Button")).success = true ∧
    (parseNextTaskOutput (strU "Next Task: #14.1 - Add Button")).isSubtask =
      some (decide (46 ∈ strU "14.1")) ∧
    (parseNextTaskOutput (strU "Next Task: #14.1 - Add Button")).id =
      some (if 46 ∈ strU "14.1" then .subId (strU "14.1")
            else .taskId (parseIntU (strU "14.1"))) :=
  parseNextTaskOutput_spec.2.2.2.2.2.2.2.1
    (strU "Next Task: #14.1 - Add Button") (strU "14.1") (by decide)

/-! ## C1 / C10: `fixSubtaskIds` lemma layer -/

/-- Claim side: the rewrite condition — a string id splitting into exactly two
parts whose first is the parent id's decimal string. -/
def subtaskMatches (parentId : Nat) (st : Subtask) : Bool :=
  match st.id with
  | .str s =>
    decide ((splitDot s).length = 2 ∧ (splitDot s).head? = some (natToUnits parentId))
  | .num _ => false

/-- Claim side: whether some subtask of `t` satisfies the rewrite condition. -/
def taskHasMatch (t : Task) : Bool :=
  match t.subtasks with
  | none => false
  | some subs => subs.any (subtaskMatches t.id)

theorem splitDot_no_dot {s : JSStr} (h : 46 ∉ s) : splitDot s = [s] := by
  induction s with
  | nil => rfl
  | cons c rest ih =>
    have hc : c ≠ 46 := fun he => h (he ▸ List.mem_cons_self c rest)
    have hr : 46 ∉ rest := fun hm => h (List.mem_cons_of_mem c hm)
    unfold splitDot
    rw [if_neg (fun he => hc he), ih hr]

theorem dot_of_splitDot_length {s : JSStr} (h : (splitDot s).length = 2) : 46 ∈ s := by
  by_contra hnot
  rw [splitDot_no_dot hnot] at h
  simp at h

theorem fixOneSubtask_eq (pid i : Nat) (st : Subtask) :
    fixOneSubtask pid i st =
      (if subtaskMatches pid st then { st with id := .num (i + 1) } else st,
       subtaskMatches pid st) := by
  unfold fixOneSubtask subtaskMatches
  cases hid : st.id with
  | num n => simp
  | str s =>
    by_cases hdot : 46 ∈ s
    · by_cases hm : (splitDot s).length = 2 ∧ (splitDot s).head? = some (natToUnits pid)
      · simp [hdot, hm]
      · simp [hdot, hm]
    · have hm : ¬((splitDot s).length = 2 ∧ (splitDot s).head? = some (natToUnits pid)) := by
        intro hc
        exact hdot (dot_of_splitDot_length hc.1)
      simp [hdot, hm]

theorem mapIdxFrom_getElem? (f : Nat → α → β) :
    ∀ (l : List α) (k i : Nat), (mapIdxFrom f k l)[i]? = l[i]?.map (f (k + i)) := by
  intro l
  induction l with
  | nil => intro k i; simp [mapIdxFrom]
  | cons a as ih =>
    intro k i
    cases i with
    | zero => simp [mapIdxFrom]
    | succ i =>
      simp only [mapIdxFrom, List.getElem?_cons_succ]
      rw [ih (k + 1) i]
      have harith : k + 1 + i = k + (i + 1) := by omega
      rw [harith]

theorem mapIdxFrom_fst_unchanged (pid : Nat) :
    ∀ (subs : List Subtask) (k : Nat),
      (∀ st ∈ subs, subtaskMatches pid st = false) →
      (mapIdxFrom (fixOneSubtask pid) k subs).map Prod.fst = subs := by
  intro subs
  induction subs with
  | nil => intro k h; rfl
  | cons st rest ih =>
    intro k h
    simp only [mapIdxFrom, List.map_cons]
    rw [fixOneSubtask_eq, ih (k + 1) (fun u hu => h u (List.mem_cons_of_mem st hu))]
    have hst := h st (List.mem_cons_self st rest)
    rw [hst]
    simp

theorem mapIdxFrom_any_snd (pid : Nat) :
    ∀ (subs : List Subtask) (k : Nat),
      (mapIdxFrom (fixOneSubtask pid) k subs).any Prod.snd =
        subs.any (subtaskMatches pid) := by
  intro subs
  induction subs with
  | nil => intro k; rfl
  | cons st rest ih =>
    intro k
    simp only [mapIdxFrom, List.any_cons]
    rw [fixOneSubtask_eq, ih (k + 1)]

theorem fixTask_snd (t : Task) : (fixTask t).2 = taskHasMatch t := by
  unfold fixTask taskHasMatch
  cases t.subtasks with
  | none => rfl
  | some subs => exact mapIdxFrom_any_snd t.id subs 0

theorem fixTask_fst_id (t : Task) : (fixTask t).1.id = t.id := by
  unfold fixTask
  cases t.subtasks with
  | none => rfl
  | some subs => rfl

theorem fixTask_unchanged {t : Task} (h : (fixTask t).2 = false) : (fixTask t).1 = t := by
  rw [fixTask_snd] at h
  unfold fixTask
  unfold taskHasMatch at h
  cases hs : t.subtasks with
  | none => rfl
  | some subs =>
    rw [hs] at h
    rw [List.any_eq_false] at h
    have hall : ∀ st ∈ subs, subtaskMatches t.id st = false := by
      intro st hst
      have hb := h st hst
      simpa using hb
    simp only
    rw [mapIdxFrom_fst_unchanged t.id subs 0 hall, ← hs]

theorem fixTask_changed {t : Task} (h : (fixTask t).2 = true) : (fixTask t).1 ≠ t := by
  rw [fixTask_snd] at h
  unfold taskHasMatch at h
  intro heq
  cases hs : t.subtasks with
  | none => rw [hs] at h; exact Bool.noConfusion h
  | some subs =>
    rw [hs] at h
    rw [List.any_eq_true] at h
    obtain ⟨st, hmem, hmatch⟩ := h
    obtain ⟨i, hi⟩ := List.getElem?_of_mem hmem
    have hfix : (fixTask t).1.subtasks =
        some ((mapIdxFrom (fixOneSubtask t.id) 0 subs).map Prod.fst) := by
      unfold fixTask
      rw [hs]
    rw [heq, hs] at hfix
    have hlist : (mapIdxFrom (fixOneSubtask t.id) 0 subs).map Prod.fst = subs :=
      (Option.some.inj hfix).symm
    have hout : ((mapIdxFrom (fixOneSubtask t.id) 0 subs).map Prod.fst)[i]? =
        some { st with id := .num (i + 1) } := by
      rw [List.getElem?_map, mapIdxFrom_getElem?, hi]
      simp only [Option.map_some', Nat.zero_add]
      rw [fixOneSubtask_eq, hmatch]
      rfl
    rw [hlist, hi] at hout
    have hid : st.id = JSVal.num (i + 1) := congrArg Subtask.id (Option.some.inj hout)
    unfold subtaskMatches at hmatch
    rw [hid] at hmatch
    exact Bool.noConfusion hmatch

theorem mem_of_getElem?_some {l : List α} {i : Nat} {a : α} (h : l[i]? = some a) :
    a ∈ l := by
  obtain ⟨hlt, he⟩ := List.getElem?_eq_some_iff.mp h
  exact he ▸ List.getElem_mem hlt

theorem fixSubtaskIds_tasks_getElem? (ts : List Task) (j : Nat) :
    ((fixSubtaskIds ts).tasks)[j]? = (ts[j]?).map (fun t => (fixTask t).1) := by
  show ((ts.map fixTask).map Prod.fst)[j]? = _
  rw [List.getElem?_map, List.getElem?_map, Option.map_map]
  rfl

theorem fixSubtaskIds_hasChanges (ts : List Task) :
    (fixSubtaskIds ts).hasChanges = ts.any taskHasMatch := by
  show (ts.map fixTask).any Prod.snd = ts.any taskHasMatch
  induction ts with
  | nil => rfl
  | cons t rest ih =>
    simp only [List.map_cons, List.any_cons]
    rw [ih, fixTask_snd]

theorem fixSubtaskIds_changedTasks (ts : List Task) :
    (fixSubtaskIds ts).changedTasks = (ts.filter taskHasMatch).map Task.id := by
  show ((ts.map fixTask).filter Prod.snd).map (fun r => r.1.id)
      = (ts.filter taskHasMatch).map Task.id
  induction ts with
  | nil => rfl
  | cons t rest ih =>
    simp only [List.map_cons, List.filter_cons]
    rw [fixTask_snd]
    by_cases h : taskHasMatch t = true
    · rw [if_pos h, if_pos h]
      simp only [List.map_cons]
      rw [ih, fixTask_fst_id]
    · rw [if_neg h, if_neg h]
      exact ih

def c1Sub : Subtask :=
  { id := .str (strU "1.2.3"), title := strU "child", description := none
    status := strU "pending", dependencies := none, parentId := 1 }

def c1Task : Task :=
  { id := 1, title := strU "parent", description := strU "d", details := none
    priority := strU "high", status := strU "pending", dependencies := none
    subtasks := some [c1Sub], complexityScore := none, filePath := none }

/-- C1 counterexample: the subtask id `"1.2.3"` is a string containing a dot
whose first dot-segment equals the parent id's string `"1"`, yet
`fixSubtaskIds` leaves it unchanged, reports no change and no task — because
the code additionally requires the split to have exactly two parts
(`parts.length === 2`), which the claim omits. -/
theorem fixSubtaskIds_claim_counterexample :
    (46 ∈ strU "1.2.3") ∧
    (splitDot (strU "1.2.3")).head? = some (natToUnits c1Task.id) ∧
    fixSubtaskIds [c1Task] =
      { tasks := [c1Task], hasChanges := false, changedTasks := [] } := by
  refine ⟨by decide, by decide, by decide⟩

/-- C1 amended: for a subtask at 0-based position `i` whose string id contains
a dot, if the dot-split has **exactly two segments** and the first equals the
parent task's id as a string, the id is rewritten to `i + 1`, `hasChanges` is
set, and the parent's id is recorded in `changedTasks`; otherwise the subtask
is returned unchanged, and a parent none of whose subtasks match (nor any
other task with the same id) is not reported. -/
theorem fixSubtaskIds_rewrite_spec (ts : List Task) (j : Nat) (t : Task)
    (ht : ts[j]? = some t) (subs : List Subtask) (hsubs : t.subtasks = some subs)
    (i : Nat) (st : Subtask) (hst : subs[i]? = some st)
    (s : JSStr) (hid : st.id = .str s) (hdot : 46 ∈ s) :
    ∃ subs' : List Subtask,
      ((fixSubtaskIds ts).tasks)[j]? = some { t with subtasks := some subs' } ∧
      (((splitDot s).length = 2 ∧ (splitDot s).head? = some (natToUnits t.id)) →
        subs'[i]? = some { st with id := .num (i + 1) } ∧
        (fixSubtaskIds ts).hasChanges = true ∧
        t.id ∈ (fixSubtaskIds ts).changedTasks) ∧
      (¬((splitDot s).length = 2 ∧ (splitDot s).head? = some (natToUnits t.id)) →
        subs'[i]? = some st) ∧
      ((∀ u ∈ ts, u.id = t.id → taskHasMatch u = false) →
        t.id ∉ (fixSubtaskIds ts).changedTasks) := by
  have hmem : t ∈ ts := mem_of_getElem?_some ht
  have hsmem : st ∈ subs := mem_of_getElem?_some hst
  refine ⟨(mapIdxFrom (fixOneSubtask t.id) 0 subs).map Prod.fst, ?_, ?_, ?_, ?_⟩
  · rw [fixSubtaskIds_tasks_getElem?, ht]
    simp only [Option.map_some']
    congr 1
    unfold fixTask
    rw [hsubs]
  · intro hm
    have hmatch : subtaskMatches t.id st = true := by
      unfold subtaskMatches
      rw [hid]
      exact decide_eq_true hm
    refine ⟨?_, ?_, ?_⟩
    · rw [List.getElem?_map, mapIdxFrom_getElem?, hst]
      simp only [Option.map_some', Nat.zero_add]
      rw [fixOneSubtask_eq, hmatch]
      rfl
    · rw [fixSubtaskIds_hasChanges, List.any_eq_true]
      refine ⟨t, hmem, ?_⟩
      unfold taskHasMatch
      rw [hsubs, List.any_eq_true]
      exact ⟨st, hsmem, hmatch⟩
    · rw [fixSubtaskIds_changedTasks, List.mem_map]
      refine ⟨t, List.mem_filter.mpr ⟨hmem, ?_⟩, rfl⟩
      unfold taskHasMatch
      rw [hsubs, List.any_eq_true]
      exact ⟨st, hsmem, hmatch⟩
  · intro hm
    have hmatch : subtaskMatches t.id st = false := by
      unfold subtaskMatches
      rw [hid]
      exact decide_eq_false hm
    rw [List.getElem?_map, mapIdxFrom_getElem?, hst]
    simp only [Option.map_some', Nat.zero_add]
    rw [fixOneSubtask_eq, hmatch]
    rfl
  · intro hall hin
    rw [fixSubtaskIds_changedTasks, List.mem_map] at hin
    obtain ⟨u, hu, huid⟩ := hin
    rw [List.mem_filter] at hu
    have hfalse := hall u hu.1 huid
    rw [hfalse] at hu
    exact Bool.noConfusion hu.2

def c1MSub : Subtask :=
  { id := .str (strU "1.2"), title := strU "child", description := none
    status := strU "pending", dependencies := none, parentId := 1 }

def c1MTask : Task :=
  { id := 1, title := strU "parent", description := strU "d", details := none
    priority := strU "high", status := strU "pending", dependencies := none
    subtasks := some [c1MSub], complexityScore := none, filePath := none }

theorem fixSubtaskIds_rewrite_spec_witness :
    (fixSubtaskIds [c1MTask]).hasChanges = true ∧
    c1MTask.id ∈ (fixSubtaskIds [c1MTask]).changedTasks := by
  obtain ⟨subs', hget, hmatch, hnon, hrep⟩ :=
    fixSubtaskIds_rewrite_spec [c1MTask] 0 c1MTask (by decide) [c1MSub] rfl 0 c1MSub
      rfl (strU "1.2") rfl (by decide)
  have h := hmatch (by decide)
  exact ⟨h.2.1, h.2.2⟩

/-- C10: `hasChanges` is true iff the changed-task list is non-empty; the
changed-task list is exactly the ids, in input order and once per task, of the
tasks whose output differs from their input; and every task whose id is
absent from the list is returned structurally equal to its input. -/
theorem fixSubtaskIds_consistency (ts : List Task) :
    ((fixSubtaskIds ts).hasChanges = true ↔ (fixSubtaskIds ts).changedTasks ≠ []) ∧
    ((fixSubtaskIds ts).changedTasks =
      ((ts.zip (fixSubtaskIds ts).tasks).filter (fun p => decide (p.2 ≠ p.1))).map
        (fun p => p.1.id)) ∧
    (∀ (j : Nat) (t : Task), ts[j]? = some t →
      t.id ∉ (fixSubtaskIds ts).changedTasks →
      ((fixSubtaskIds ts).tasks)[j]? = some t) := by
  refine ⟨?_, ?_, ?_⟩
  · rw [fixSubtaskIds_hasChanges, fixSubtaskIds_changedTasks]
    constructor
    · intro h hnil
      rw [List.any_eq_true] at h
      obtain ⟨x, hx, hmx⟩ := h
      rw [List.map_eq_nil_iff, List.filter_eq_nil_iff] at hnil
      exact hnil x hx hmx
    · intro hne
      cases hb : ts.any taskHasMatch with
      | true => rfl
      | false =>
        exfalso
        apply hne
        rw [List.any_eq_false] at hb
        rw [List.map_eq_nil_iff, List.filter_eq_nil_iff]
        exact hb
  · show ((ts.map fixTask).filter Prod.snd).map (fun r => r.1.id) = _
    induction ts with
    | nil => rfl
    | cons t rest ih =>
      show _ = ((((t :: rest).zip ((fixTask t).1 :: (rest.map fixTask).map Prod.fst)).filter
          (fun p => decide (p.2 ≠ p.1))).map (fun p => p.1.id))
      rw [List.zip_cons_cons]
      simp only [List.map_cons, List.filter_cons]
      have hdec : decide (((t, (fixTask t).1)).2 ≠ ((t, (fixTask t).1)).1) = (fixTask t).2 := by
        cases hb : (fixTask t).2 with
        | false => simp [fixTask_unchanged hb]
        | true => simp [fixTask_changed hb]
      rw [hdec]
      cases hb : (fixTask t).2 with
      | false =>
        rw [if_neg (by trivial), if_neg (by trivial)]
        exact ih
      | true =>
        rw [if_pos (by trivial), if_pos (by trivial)]
        simp only [List.map_cons]
        rw [ih, fixTask_fst_id]
        rfl
  · intro j t ht hnin
    rw [fixSubtaskIds_tasks_getElem?, ht]
    simp only [Option.map_some']
    have hflag : (fixTask t).2 = false := by
      cases hb : (fixTask t).2 with
      | false => rfl
      | true =>
        exfalso
        apply hnin
        rw [fixSubtaskIds_changedTasks, List.mem_map]
        refine ⟨t, List.mem_filter.mpr ⟨mem_of_getElem?_some ht, ?_⟩, rfl⟩
        rw [← fixTask_snd]
        exact hb
    rw [fixTask_unchanged hflag]

def c10Sub : Subtask :=
  { id := .str (strU "1.2"), title := strU "child", description := none
    status := strU "pending", dependencies := none, parentId := 2 }

def c10Task : Task :=
  { id := 2, title := strU "parent", description := strU "d", details := none
    priority := strU "high", status := strU "pending", dependencies := none
    subtasks := some [c10Sub], complexityScore := none, filePath := none }

theorem fixSubtaskIds_consistency_witness :
    ((fixSubtaskIds [c10Task]).tasks)[0]? = some c10Task :=
  (fixSubtaskIds_consistency [c10Task]).2.2 0 c10Task (by decide) (by decide)

/-! ## C4: `calculateStats` -/

/-- Claim side: number of tasks with a given status string. -/
def countStatus (s : JSStr) (ts : List Task) : Nat :=
  ts.countP (fun t => decide (t.status = s))

/-- Claim side: the flattened subtasks of all tasks. -/
def allSubtasks (ts : List Task) : List Subtask :=
  (ts.map (fun t => t.subtasks.getD [])).flatten

/-- Claim side: number of flattened subtasks with a given status string. -/
def countSubStatus (s : JSStr) (ts : List Task) : Nat :=
  (allSubtasks ts).countP (fun st => decide (st.status = s))

theorem bumpTaskBucket_fields (acc : TaskStats) (s : JSStr) :
    (bumpTaskBucket acc s).total = acc.total ∧
    (bumpTaskBucket acc s).completed = acc.completed + (if s = strU "done" then 1 else 0) ∧
    (bumpTaskBucket acc s).inProgress = acc.inProgress + (if s = strU "in-progress" then 1 else 0) ∧
    (bumpTaskBucket acc s).pending = acc.pending + (if s = strU "pending" then 1 else 0) ∧
    (bumpTaskBucket acc s).blocked = acc.blocked + (if s = strU "blocked" then 1 else 0) ∧
    (bumpTaskBucket acc s).deferred = acc.deferred + (if s = strU "deferred" then 1 else 0) ∧
    (bumpTaskBucket acc s).cancelled = acc.cancelled + (if s = strU "cancelled" then 1 else 0) ∧
    (bumpTaskBucket acc s).review = acc.review + (if s = strU "review" then 1 else 0) ∧
    (bumpTaskBucket acc s).completionPercentage = acc.completionPercentage ∧
    (bumpTaskBucket acc s).subtasks = acc.subtasks := by
  by_cases h1 : s = strU "done"
  · subst h1; simp [bumpTaskBucket, show strU "done" ≠ strU "in-progress" from by decide, show strU "done" ≠ strU "pending" from by decide, show strU "done" ≠ strU "blocked" from by decide, show strU "done" ≠ strU "deferred" from by decide, show strU "done" ≠ strU "cancelled" from by decide, show strU "done" ≠ strU "review" from by decide]
  · by_cases h2 : s = strU "in-progress"
    · subst h2; simp [bumpTaskBucket, show strU "in-progress" ≠ strU "done" from by decide, show strU "in-progress" ≠ strU "pending" from by decide, show strU "in-progress" ≠ strU "blocked" from by decide, show strU "in-progress" ≠ strU "deferred" from by decide, show strU "in-progress" ≠ strU "cancelled" from by decide, show strU "in-progress" ≠ strU "review" from by decide]
    · by_cases h3 : s = strU "pending"
      · subst h3; simp [bumpTaskBucket, show strU "pending" ≠ strU "done" from by decide, show strU "pending" ≠ strU "in-progress" from by decide, show strU "pending" ≠ strU "blocked" from by decide, show strU "pending" ≠ strU "deferred" from by decide, show strU "pending" ≠ strU "cancelled" from by decide, show strU "pending" ≠ strU "review" from by decide]
      · by_cases h4 : s = strU "blocked"
        · subst h4; simp [bumpTaskBucket, show strU "blocked" ≠ strU "done" from by decide, show strU "blocked" ≠ strU "in-progress" from by decide, show strU "blocked" ≠ strU "pending" from by decide, show strU "blocked" ≠ strU "deferred" from by decide, show strU "blocked" ≠ strU "cancelled" from by decide, show strU "blocked" ≠ strU "review" from by decide]
        · by_cases h5 : s = strU "deferred"
          · subst h5; simp [bumpTaskBucket, show strU "deferred" ≠ strU "done" from by decide, show strU "deferred" ≠ strU "in-progress" from by decide, show strU "deferred" ≠ strU "pending" from by decide, show strU "deferred" ≠ strU "blocked" from by decide, show strU "deferred" ≠ strU "cancelled" from by decide, show strU "deferred" ≠ strU "review" from by decide]
          · by_cases h6 : s = strU "cancelled"
            · subst h6; simp [bumpTaskBucket, show strU "cancelled" ≠ strU "done" from by decide, show strU "cancelled" ≠ strU "in-progress" from by decide, show strU "cancelled" ≠ strU "pending" from by decide, show strU "cancelled" ≠ strU "blocked" from by decide, show strU "cancelled" ≠ strU "deferred" from by decide, show strU "cancelled" ≠ strU "review" from by decide]
            · by_cases h7 : s = strU "review"
              · subst h7; simp [bumpTaskBucket, show strU "review" ≠ strU "done" from by decide, show strU "review" ≠ strU "in-progress" from by decide, show strU "review" ≠ strU "pending" from by decide, show strU "review" ≠ strU "blocked" from by decide, show strU "review" ≠ strU "deferred" from by decide, show strU "review" ≠ strU "cancelled" from by decide]
              · simp [bumpTaskBucket, h1, h2, h3, h4, h5, h6, h7]

theorem bumpSubtaskBucket_fields (a : SubtaskStats) (s : JSStr) :
    (bumpSubtaskBucket a s).total = a.total ∧
    (bumpSubtaskBucket a s).completed = a.completed + (if s = strU "done" then 1 else 0) ∧
    (bumpSubtaskBucket a s).inProgress = a.inProgress + (if s = strU "in-progress" then 1 else 0) ∧
    (bumpSubtaskBucket a s).pending = a.pending + (if s = strU "pending" then 1 else 0) ∧
    (bumpSubtaskBucket a s).blocked = a.blocked + (if s = strU "blocked" then 1 else 0) ∧
    (bumpSubtaskBucket a s).deferred = a.deferred + (if s = strU "deferred" then 1 else 0) ∧
    (bumpSubtaskBucket a s).cancelled = a.cancelled + (if s = strU "cancelled" then 1 else 0) ∧
    (bumpSubtaskBucket a s).completionPercentage = a.completionPercentage := by
  by_cases h1 : s = strU "done"
  · subst h1; simp [bumpSubtaskBucket, show strU "done" ≠ strU "in-progress" from by decide, show strU "done" ≠ strU "pending" from by decide, show strU "done" ≠ strU "blocked" from by decide, show strU "done" ≠ strU "deferred" from by decide, show strU "done" ≠ strU "cancelled" from by decide]
  · by_cases h2 : s = strU "in-progress"
    · subst h2; simp [bumpSubtaskBucket, show strU "in-progress" ≠ strU "done" from by decide, show strU "in-progress" ≠ strU "pending" from by decide, show strU "in-progress" ≠ strU "blocked" from by decide, show strU "in-progress" ≠ strU "deferred" from by decide, show strU "in-progress" ≠ strU "cancelled" from by decide]
    · by_cases h3 : s = strU "pending"
      · subst h3; simp [bumpSubtaskBucket, show strU "pending" ≠ strU "done" from by decide, show strU "pending" ≠ strU "in-progress" from by decide, show strU "pending" ≠ strU "blocked" from by decide, show strU "pending" ≠ strU "deferred" from by decide, show strU "pending" ≠ strU "cancelled" from by decide]
      · by_cases h4 : s = strU "blocked"
        · subst h4; simp [bumpSubtaskBucket, show strU "blocked" ≠ strU "done" from by decide, show strU "blocked" ≠ strU "in-progress" from by decide, show strU "blocked" ≠ strU "pending" from by decide, show strU "blocked" ≠ strU "deferred" from by decide, show strU "blocked" ≠ strU "cancelled" from by decide]
        · by_cases h5 : s = strU "deferred"
          · subst h5; simp [bumpSubtaskBucket, show strU "deferred" ≠ strU "done" from by decide, show strU "deferred" ≠ strU "in-progress" from by decide, show strU "deferred" ≠ strU "pending" from by decide, show strU "deferred" ≠ strU "blocked" from by decide, show strU "deferred" ≠ strU "cancelled" from by decide]
          · by_cases h6 : s = strU "cancelled"
            · subst h6; simp [bumpSubtaskBucket, show strU "cancelled" ≠ strU "done" from by decide, show strU "cancelled" ≠ strU "in-progress" from by decide, show strU "cancelled" ≠ strU "pending" from by decide, show strU "cancelled" ≠ strU "blocked" from by decide, show strU "cancelled" ≠ strU "deferred" from by decide]
            · simp [bumpSubtaskBucket, h1, h2, h3, h4, h5, h6]

theorem subFold_fields :
    ∀ (subs : List Subtask) (acc : TaskStats),
      (subs.foldl subStatsStep acc).total = acc.total ∧
      (subs.foldl subStatsStep acc).completed = acc.completed ∧
      (subs.foldl subStatsStep acc).inProgress = acc.inProgress ∧
      (subs.foldl subStatsStep acc).pending = acc.pending ∧
      (subs.foldl subStatsStep acc).blocked = acc.blocked ∧
      (subs.foldl subStatsStep acc).deferred = acc.deferred ∧
      (subs.foldl subStatsStep acc).cancelled = acc.cancelled ∧
      (subs.foldl subStatsStep acc).review = acc.review ∧
      (subs.foldl subStatsStep acc).completionPercentage = acc.completionPercentage ∧
      (subs.foldl subStatsStep acc).subtasks.total = acc.subtasks.total ∧
      (subs.foldl subStatsStep acc).subtasks.completed =
        acc.subtasks.completed + subs.countP (fun st => decide (st.status = strU "done")) ∧
      (subs.foldl subStatsStep acc).subtasks.inProgress =
        acc.subtasks.inProgress + subs.countP (fun st => decide (st.status = strU "in-progress")) ∧
      (subs.foldl subStatsStep acc).subtasks.pending =
        acc.subtasks.pending + subs.countP (fun st => decide (st.status = strU "pending")) ∧
      (subs.foldl subStatsStep acc).subtasks.blocked =
        acc.subtasks.blocked + subs.countP (fun st => decide (st.status = strU "blocked")) ∧
      (subs.foldl subStatsStep acc).subtasks.deferred =
        acc.subtasks.deferred + subs.countP (fun st => decide (st.status = strU "deferred")) ∧
      (subs.foldl subStatsStep acc).subtasks.cancelled =
        acc.subtasks.cancelled + subs.countP (fun st => decide (st.status = strU "cancelled")) ∧
      (subs.foldl subStatsStep acc).subtasks.completionPercentage =
        acc.subtasks.completionPercentage := by
  intro subs
  induction subs with
  | nil =>
    intro acc
    refine ⟨rfl, rfl, rfl, rfl, rfl, rfl, rfl, rfl, rfl, rfl, ?_, ?_, ?_, ?_, ?_, ?_, rfl⟩ <;> simp
  | cons st rest ih =>
    intro acc
    simp only [List.foldl_cons, List.countP_cons]
    obtain ⟨i1, i2, i3, i4, i5, i6, i7, i8, i9, i10, i11, i12, i13, i14, i15, i16, i17⟩ :=
      ih (subStatsStep acc st)
    have hsub : (subStatsStep acc st).subtasks = bumpSubtaskBucket acc.subtasks st.status := rfl
    rw [hsub] at i10 i11 i12 i13 i14 i15 i16 i17
    obtain ⟨b1, b2, b3, b4, b5, b6, b7, b8⟩ := bumpSubtaskBucket_fields acc.subtasks st.status
    rw [b1] at i10
    rw [b2] at i11
    rw [b3] at i12
    rw [b4] at i13
    rw [b5] at i14
    rw [b6] at i15
    rw [b7] at i16
    rw [b8] at i17
    exact ⟨i1, i2, i3, i4, i5, i6, i7, i8, i9, i10,
      by rw [i11]; simp only [decide_eq_true_eq]; omega,
      by rw [i12]; simp only [decide_eq_true_eq]; omega,
      by rw [i13]; simp only [decide_eq_true_eq]; omega,
      by rw [i14]; simp only [decide_eq_true_eq]; omega,
      by rw [i15]; simp only [decide_eq_true_eq]; omega,
      by rw [i16]; simp only [decide_eq_true_eq]; omega, i17⟩

theorem statsStep_none {t : Task} (hs : t.subtasks = none) (acc : TaskStats) :
    statsStep acc t = bumpTaskBucket acc t.status := by
  unfold statsStep
  rw [hs]

theorem statsStep_some {t : Task} {subs : List Subtask} (hs : t.subtasks = some subs)
    (acc : TaskStats) :
    statsStep acc t = subs.foldl subStatsStep
      { bumpTaskBucket acc t.status with
        subtasks := { (bumpTaskBucket acc t.status).subtasks with
          total := (bumpTaskBucket acc t.status).subtasks.total + subs.length } } := by
  unfold statsStep
  rw [hs]

theorem statsStep_fields (acc : TaskStats) (t : Task) :
    (statsStep acc t).total = acc.total ∧
    (statsStep acc t).completed = acc.completed + (if t.status = strU "done" then 1 else 0) ∧
    (statsStep acc t).inProgress =
      acc.inProgress + (if t.status = strU "in-progress" then 1 else 0) ∧
    (statsStep acc t).pending = acc.pending + (if t.status = strU "pending" then 1 else 0) ∧
    (statsStep acc t).blocked = acc.blocked + (if t.status = strU "blocked" then 1 else 0) ∧
    (statsStep acc t).deferred = acc.deferred + (if t.status = strU "deferred" then 1 else 0) ∧
    (statsStep acc t).cancelled =
      acc.cancelled + (if t.status = strU "cancelled" then 1 else 0) ∧
    (statsStep acc t).review = acc.review + (if t.status = strU "review" then 1 else 0) ∧
    (statsStep acc t).completionPercentage = acc.completionPercentage ∧
    (statsStep acc t).subtasks.total = acc.subtasks.total + (t.subtasks.getD []).length ∧
    (statsStep acc t).subtasks.completed = acc.subtasks.completed +
      (t.subtasks.getD []).countP (fun st => decide (st.status = strU "done")) ∧
    (statsStep acc t).subtasks.inProgress = acc.subtasks.inProgress +
      (t.subtasks.getD []).countP (fun st => decide (st.status = strU "in-progress")) ∧
    (statsStep acc t).subtasks.pending = acc.subtasks.pending +
      (t.subtasks.getD []).countP (fun st => decide (st.status = strU "pending")) ∧
    (statsStep acc t).subtasks.blocked = acc.subtasks.blocked +
      (t.subtasks.getD []).countP (fun st => decide (st.status = strU "blocked")) ∧
    (statsStep acc t).subtasks.deferred = acc.subtasks.deferred +
      (t.subtasks.getD []).countP (fun st => decide (st.status = strU "deferred")) ∧
    (statsStep acc t).subtasks.cancelled = acc.subtasks.cancelled +
      (t.subtasks.getD []).countP (fun st => decide (st.status = strU "cancelled")) ∧
    (statsStep acc t).subtasks.completionPercentage = acc.subtasks.completionPercentage := by
  obtain ⟨t1, t2, t3, t4, t5, t6, t7, t8, t9, t10⟩ := bumpTaskBucket_fields acc t.status
  cases hs : t.subtasks with
  | none =>
    rw [statsStep_none hs]
    simp only [Option.getD_none, List.length_nil, List.countP_nil, Nat.add_zero]
    exact ⟨t1, t2, t3, t4, t5, t6, t7, t8, t9,
      by rw [t10], by rw [t10], by rw [t10], by rw [t10],
      by rw [t10], by rw [t10], by rw [t10], by rw [t10]⟩
  | some subs =>
    rw [statsStep_some hs]
    simp only [Option.getD_some]
    obtain ⟨f1, f2, f3, f4, f5, f6, f7, f8, f9, f10, f11, f12, f13, f14, f15, f16, f17⟩ :=
      subFold_fields subs
        { bumpTaskBucket acc t.status with
          subtasks := { (bumpTaskBucket acc t.status).subtasks with
            total := (bumpTaskBucket acc t.status).subtasks.total + subs.length } }
    refine ⟨?_, ?_, ?_, ?_, ?_, ?_, ?_, ?_, ?_, ?_, ?_, ?_, ?_, ?_, ?_, ?_, ?_⟩
    · rw [f1]; exact t1
    · rw [f2]; exact t2
    · rw [f3]; exact t3
    · rw [f4]; exact t4
    · rw [f5]; exact t5
    · rw [f6]; exact t6
    · rw [f7]; exact t7
    · rw [f8]; exact t8
    · rw [f9]; exact t9
    · rw [f10]
      show (bumpTaskBucket acc t.status).subtasks.total + subs.length = _
      rw [t10]
    · rw [f11]
      show (bumpTaskBucket acc t.status).subtasks.completed + _ = _
      rw [t10]
    · rw [f12]
      show (bumpTaskBucket acc t.status).subtasks.inProgress + _ = _
      rw [t10]
    · rw [f13]
      show (bumpTaskBucket acc t.status).subtasks.pending + _ = _
      rw [t10]
    · rw [f14]
      show (bumpTaskBucket acc t.status).subtasks.blocked + _ = _
      rw [t10]
    · rw [f15]
      show (bumpTaskBucket acc t.status).subtasks.deferred + _ = _
      rw [t10]
    · rw [f16]
      show (bumpTaskBucket acc t.status).subtasks.cancelled + _ = _
      rw [t10]
    · rw [f17]
      show (bumpTaskBucket acc t.status).subtasks.completionPercentage = _
      rw [t10]

theorem countStatus_cons (s : JSStr) (t : Task) (rest : List Task) :
    countStatus s (t :: rest) = countStatus s rest + (if t.status = s then 1 else 0) := by
  simp [countStatus, List.countP_cons]

theorem allSubtasks_cons (t : Task) (rest : List Task) :
    allSubtasks (t :: rest) = (t.subtasks.getD []) ++ allSubtasks rest := by
  simp [allSubtasks]

theorem countSubStatus_cons (s : JSStr) (t : Task) (rest : List Task) :
    countSubStatus s (t :: rest) =
      (t.subtasks.getD []).countP (fun st => decide (st.status = s)) +
        countSubStatus s rest := by
  simp [countSubStatus, allSubtasks_cons, List.countP_append]

theorem statsLoop_fields :
    ∀ (ts : List Task) (acc : TaskStats),
      (ts.foldl statsStep acc).total = acc.total ∧
      (ts.foldl statsStep acc).completed = acc.completed + countStatus (strU "done") ts ∧
      (ts.foldl statsStep acc).inProgress =
        acc.inProgress + countStatus (strU "in-progress") ts ∧
      (ts.foldl statsStep acc).pending = acc.pending + countStatus (strU "pending") ts ∧
      (ts.foldl statsStep acc).blocked = acc.blocked + countStatus (strU "blocked") ts ∧
      (ts.foldl statsStep acc).deferred = acc.deferred + countStatus (strU "deferred") ts ∧
      (ts.foldl statsStep acc).cancelled =
        acc.cancelled + countStatus (strU "cancelled") ts ∧
      (ts.foldl statsStep acc).review = acc.review + countStatus (strU "review") ts ∧
      (ts.foldl statsStep acc).completionPercentage = acc.completionPercentage ∧
      (ts.foldl statsStep acc).subtasks.total =
        acc.subtasks.total + (allSubtasks ts).length ∧
      (ts.foldl statsStep acc).subtasks.completed =
        acc.subtasks.completed + countSubStatus (strU "done") ts ∧
      (ts.foldl statsStep acc).subtasks.inProgress =
        acc.subtasks.inProgress + countSubStatus (strU "in-progress") ts ∧
      (ts.foldl statsStep acc).subtasks.pending =
        acc.subtasks.pending + countSubStatus (strU "pending") ts ∧
      (ts.foldl statsStep acc).subtasks.blocked =
        acc.subtasks.blocked + countSubStatus (strU "blocked") ts ∧
      (ts.foldl statsStep acc).subtasks.deferred =
        acc.subtasks.deferred + countSubStatus (strU "deferred") ts ∧
      (ts.foldl statsStep acc).subtasks.cancelled =
        acc.subtasks.cancelled + countSubStatus (strU "cancelled") ts ∧
      (ts.foldl statsStep acc).subtasks.completionPercentage =
        acc.subtasks.completionPercentage := by
  intro ts
  induction ts with
  | nil =>
    intro acc
    refine ⟨rfl, ?_, ?_, ?_, ?_, ?_, ?_, ?_, rfl, ?_, ?_, ?_, ?_, ?_, ?_, ?_, rfl⟩ <;>
      simp [countStatus, countSubStatus, allSubtasks]
  | cons t rest ih =>
    intro acc
    simp only [List.foldl_cons]
    obtain ⟨i1, i2, i3, i4, i5, i6, i7, i8, i9, i10, i11, i12, i13, i14, i15, i16, i17⟩ :=
      ih (statsStep acc t)
    obtain ⟨s1, s2, s3, s4, s5, s6, s7, s8, s9, s10, s11, s12, s13, s14, s15, s16, s17⟩ :=
      statsStep_fields acc t
    rw [s1] at i1
    rw [s2] at i2
    rw [s3] at i3
    rw [s4] at i4
    rw [s5] at i5
    rw [s6] at i6
    rw [s7] at i7
    rw [s8] at i8
    rw [s9] at i9
    rw [s10] at i10
    rw [s11] at i11
    rw [s12] at i12
    rw [s13] at i13
    rw [s14] at i14
    rw [s15] at i15
    rw [s16] at i16
    rw [s17] at i17
    refine ⟨i1, ?_, ?_, ?_, ?_, ?_, ?_, ?_, i9, ?_, ?_, ?_, ?_, ?_, ?_, ?_, i17⟩
    · rw [i2, countStatus_cons]; omega
    · rw [i3, countStatus_cons]; omega
    · rw [i4, countStatus_cons]; omega
    · rw [i5, countStatus_cons]; omega
    · rw [i6, countStatus_cons]; omega
    · rw [i7, countStatus_cons]; omega
    · rw [i8, countStatus_cons]; omega
    · rw [i10, allSubtasks_cons, List.length_append]; omega
    · rw [i11, countSubStatus_cons]; omega
    · rw [i12, countSubStatus_cons]; omega
    · rw [i13, countSubStatus_cons]; omega
    · rw [i14, countSubStatus_cons]; omega
    · rw [i15, countSubStatus_cons]; omega
    · rw [i16, countSubStatus_cons]; omega

def c4Sub : Subtask :=
  { id := .num 1, title := strU "s", description := none
    status := strU "review", dependencies := none, parentId := 1 }

def c4Task : Task :=
  { id := 1, title := strU "t", description := strU "d", details := none
    priority := strU "high", status := strU "pending", dependencies := none
    subtasks := some [c4Sub], complexityScore := none, filePath := none }

/-- C4 counterexample: "review" is one of the seven `TaskStatus` values, yet a
subtask whose status is "review" increments no bucket of the nested subtask
stats — whose record shape has no `review` field at all (src/types.ts
`TaskStats.subtasks`) — refuting "a count per TaskStatus value over the
flattened subtasks". -/
theorem calculateStats_claim_counterexample :
    isTaskStatus (strU "review") = true ∧
    (calculateStats [c4Task]).subtasks.total = 1 ∧
    (calculateStats [c4Task]).subtasks.completed = 0 ∧
    (calculateStats [c4Task]).subtasks.inProgress = 0 ∧
    (calculateStats [c4Task]).subtasks.pending = 0 ∧
    (calculateStats [c4Task]).subtasks.blocked = 0 ∧
    (calculateStats [c4Task]).subtasks.deferred = 0 ∧
    (calculateStats [c4Task]).subtasks.cancelled = 0 := by
  exact ⟨by decide, by decide, by decide, by decide, by decide, by decide, by decide,
    by decide⟩

/-- C4 amended: `calculateStats` counts tasks per status for all seven
`TaskStatus` values, but the nested subtask stats cover only six — there is no
`review` bucket, and a subtask with status "review" (like one with an unknown
status) increments nothing; the two completion percentages equal
`completed/total*100` with value `0` (not NaN) when the respective total is
`0`, and `calculateStats []` has `total = 0` and both percentages `0`. -/
theorem calculateStats_spec (ts : List Task) :
    (calculateStats ts).total = ts.length ∧
    (calculateStats ts).completed = countStatus (strU "done") ts ∧
    (calculateStats ts).inProgress = countStatus (strU "in-progress") ts ∧
    (calculateStats ts).pending = countStatus (strU "pending") ts ∧
    (calculateStats ts).blocked = countStatus (strU "blocked") ts ∧
    (calculateStats ts).deferred = countStatus (strU "deferred") ts ∧
    (calculateStats ts).cancelled = countStatus (strU "cancelled") ts ∧
    (calculateStats ts).review = countStatus (strU "review") ts ∧
    (calculateStats ts).completionPercentage =
      (if 0 < ts.length then
        (countStatus (strU "done") ts : Rat) / (ts.length : Rat) * 100 else 0) ∧
    (calculateStats ts).subtasks.total = (allSubtasks ts).length ∧
    (calculateStats ts).subtasks.completed = countSubStatus (strU "done") ts ∧
    (calculateStats ts).subtasks.inProgress = countSubStatus (strU "in-progress") ts ∧
    (calculateStats ts).subtasks.pending = countSubStatus (strU "pending") ts ∧
    (calculateStats ts).subtasks.blocked = countSubStatus (strU "blocked") ts ∧
    (calculateStats ts).subtasks.deferred = countSubStatus (strU "deferred") ts ∧
    (calculateStats ts).subtasks.cancelled = countSubStatus (strU "cancelled") ts ∧
    (calculateStats ts).subtasks.completionPercentage =
      (if 0 < (allSubtasks ts).length then
        (countSubStatus (strU "done") ts : Rat) / ((allSubtasks ts).length : Rat) * 100
       else 0) ∧
    (calculateStats ([] : List Task)).total = 0 ∧
    (calculateStats ([] : List Task)).completionPercentage = 0 ∧
    (calculateStats ([] : List Task)).subtasks.total = 0 ∧
    (calculateStats ([] : List Task)).subtasks.completionPercentage = 0 := by
  obtain ⟨l1, l2, l3, l4, l5, l6, l7, l8, l9, l10, l11, l12, l13, l14, l15, l16, l17⟩ :=
    statsLoop_fields ts (initialStats ts.length)
  rw [show (initialStats ts.length).total = ts.length from rfl] at l1
  rw [show (initialStats ts.length).completed = 0 from rfl, Nat.zero_add] at l2
  rw [show (initialStats ts.length).inProgress = 0 from rfl, Nat.zero_add] at l3
  rw [show (initialStats ts.length).pending = 0 from rfl, Nat.zero_add] at l4
  rw [show (initialStats ts.length).blocked = 0 from rfl, Nat.zero_add] at l5
  rw [show (initialStats ts.length).deferred = 0 from rfl, Nat.zero_add] at l6
  rw [show (initialStats ts.length).cancelled = 0 from rfl, Nat.zero_add] at l7
  rw [show (initialStats ts.length).review = 0 from rfl, Nat.zero_add] at l8
  rw [show (initialStats ts.length).subtasks.total = 0 from rfl, Nat.zero_add] at l10
  rw [show (initialStats ts.length).subtasks.completed = 0 from rfl, Nat.zero_add] at l11
  rw [show (initialStats ts.length).subtasks.inProgress = 0 from rfl, Nat.zero_add] at l12
  rw [show (initialStats ts.length).subtasks.pending = 0 from rfl, Nat.zero_add] at l13
  rw [show (initialStats ts.length).subtasks.blocked = 0 from rfl, Nat.zero_add] at l14
  rw [show (initialStats ts.length).subtasks.deferred = 0 from rfl, Nat.zero_add] at l15
  rw [show (initialStats ts.length).subtasks.cancelled = 0 from rfl, Nat.zero_add] at l16
  refine ⟨?_, ?_, ?_, ?_, ?_, ?_, ?_, ?_, ?_, ?_, ?_, ?_, ?_, ?_, ?_, ?_, ?_,
    by decide, by decide, by decide, by decide⟩
  · show (ts.foldl statsStep (initialStats ts.length)).total = ts.length
    exact l1
  · show (ts.foldl statsStep (initialStats ts.length)).completed = _
    exact l2
  · show (ts.foldl statsStep (initialStats ts.length)).inProgress = _
    exact l3
  · show (ts.foldl statsStep (initialStats ts.length)).pending = _
    exact l4
  · show (ts.foldl statsStep (initialStats ts.length)).blocked = _
    exact l5
  · show (ts.foldl statsStep (initialStats ts.length)).deferred = _
    exact l6
  · show (ts.foldl statsStep (initialStats ts.length)).cancelled = _
    exact l7
  · show (ts.foldl statsStep (initialStats ts.length)).review = _
    exact l8
  · show (if 0 < ts.length then
        ((ts.foldl statsStep (initialStats ts.length)).completed : Rat) /
          (ts.length : Rat) * 100 else 0) = _
    rw [l2]
  · show (ts.foldl statsStep (initialStats ts.length)).subtasks.total = _
    exact l10
  · show (ts.foldl statsStep (initialStats ts.length)).subtasks.completed = _
    exact l11
  · show (ts.foldl statsStep (initialStats ts.length)).subtasks.inProgress = _
    exact l12
  · show (ts.foldl statsStep (initialStats ts.length)).subtasks.pending = _
    exact l13
  · show (ts.foldl statsStep (initialStats ts.length)).subtasks.blocked = _
    exact l14
  · show (ts.foldl statsStep (initialStats ts.length)).subtasks.deferred = _
    exact l15
  · show (ts.foldl statsStep (initialStats ts.length)).subtasks.cancelled = _
    exact l16
  · show (if 0 < (ts.foldl statsStep (initialStats ts.length)).subtasks.total then
        ((ts.foldl statsStep (initialStats ts.length)).subtasks.completed : Rat) /
          ((ts.foldl statsStep (initialStats ts.length)).subtasks.total : Rat) * 100
      else 0) = _
    rw [l10, l11]

/-! ## C5: `cleanCliOutput` idempotence -/

theorem ansiStripFuel_no_esc :
    ∀ (fuel : Nat) (l : JSStr), 27 ∉ l → ansiStripFuel fuel l = l := by
  intro fuel
  induction fuel with
  | zero => intro l h; cases l <;> rfl
  | succ fuel ih =>
    intro l h
    cases l with
    | nil => rfl
    | cons c rest =>
      have hc : c ≠ 27 := fun he => h (he ▸ List.mem_cons_self c rest)
      unfold ansiStripFuel
      rw [if_neg hc, ih rest (fun hm => h (List.mem_cons_of_mem c hm))]

theorem ansiStrip_no_esc {l : JSStr} (h : 27 ∉ l) : ansiStrip l = l :=
  ansiStripFuel_no_esc l.length l h

theorem boxStrip_no_box {l : JSStr} (h : ∀ c ∈ l, isBoxU c = false) :
    boxStrip l = l :=
  List.filter_eq_self.mpr (fun a ha => by simp [h a ha])

theorem emojiStrip_no_emoji {l : JSStr} (h : ∀ c ∈ l, isEmojiU c = false) :
    emojiStrip l = l :=
  List.filter_eq_self.mpr (fun a ha => by simp [h a ha])

theorem mem_collapseWsAux :
    ∀ (l : JSStr) (b : Bool) (c : Nat), c ∈ collapseWsAux b l → c = 32 ∨ c ∈ l := by
  intro l
  induction l with
  | nil => intro b c h; exact absurd h (by simp [collapseWsAux])
  | cons a rest ih =>
    intro b c h
    unfold collapseWsAux at h
    by_cases ha : isWsU a = true
    · rw [if_pos ha] at h
      cases b with
      | true =>
        rcases ih true c h with h32 | hm
        · exact Or.inl h32
        · exact Or.inr (List.mem_cons_of_mem a hm)
      | false =>
        rw [if_neg (by trivial)] at h
        simp only [List.mem_cons] at h
        rcases h with h32 | h'
        · exact Or.inl h32
        · rcases ih true c h' with h32 | hm
          · exact Or.inl h32
          · exact Or.inr (List.mem_cons_of_mem a hm)
    · rw [if_neg ha] at h
      simp only [List.mem_cons] at h
      rcases h with rfl | h'
      · exact Or.inr (List.mem_cons_self c rest)
      · rcases ih false c h' with h32 | hm
        · exact Or.inl h32
        · exact Or.inr (List.mem_cons_of_mem a hm)

theorem trimStart_suffix (l : JSStr) : trimStartU l <:+ l :=
  List.dropWhile_suffix isWsU

theorem trimEnd_prefixOfOrig (l : JSStr) : trimEndU l <+: l := by
  have h : (l.reverse.dropWhile isWsU) <:+ l.reverse := List.dropWhile_suffix isWsU
  have h2 := List.reverse_prefix.mpr h
  rwa [List.reverse_reverse] at h2

theorem mem_trimU {l : JSStr} {c : Nat} (h : c ∈ trimU l) : c ∈ l := by
  have h1 : c ∈ trimStartU l :=
    List.Sublist.mem h ((trimEnd_prefixOfOrig (trimStartU l)).sublist)
  exact List.Sublist.mem h1 ((trimStart_suffix l).sublist)

theorem head?_dropWhile_not (p : Nat → Bool) :
    ∀ (l : JSStr) (c : Nat), (l.dropWhile p).head? = some c → p c = false := by
  intro l
  induction l with
  | nil => intro c h; exact absurd h (by simp)
  | cons a rest ih =>
    intro c h
    by_cases ha : p a = true
    · rw [List.dropWhile_cons_of_pos ha] at h
      exact ih c h
    · rw [List.dropWhile_cons_of_neg ha] at h
      simp only [List.head?_cons, Option.some.injEq] at h
      subst h
      simpa using ha

/-- No two adjacent whitespace code units. -/
def notBothWs (a b : Nat) : Prop := ¬(isWsU a = true ∧ isWsU b = true)

theorem collapse_allWs32 :
    ∀ (l : JSStr) (b : Bool) (c : Nat), c ∈ collapseWsAux b l →
      isWsU c = true → c = 32 := by
  intro l
  induction l with
  | nil => intro b c h; exact absurd h (by simp [collapseWsAux])
  | cons a rest ih =>
    intro b c h hw
    unfold collapseWsAux at h
    by_cases ha : isWsU a = true
    · rw [if_pos ha] at h
      cases b with
      | true => exact ih true c h hw
      | false =>
        rw [if_neg (by trivial)] at h
        simp only [List.mem_cons] at h
        rcases h with h32 | h'
        · exact h32
        · exact ih true c h' hw
    · rw [if_neg ha] at h
      simp only [List.mem_cons] at h
      rcases h with rfl | h'
      · exact absurd hw (by simp [ha])
      · exact ih false c h' hw

theorem collapse_head_true :
    ∀ (l : JSStr) (c : Nat), (collapseWsAux true l).head? = some c →
      isWsU c = false := by
  intro l
  induction l with
  | nil => intro c h; exact absurd h (by simp [collapseWsAux])
  | cons a rest ih =>
    intro c h
    unfold collapseWsAux at h
    by_cases ha : isWsU a = true
    · rw [if_pos ha, if_pos rfl] at h
      exact ih c h
    · rw [if_neg ha] at h
      simp only [List.head?_cons, Option.some.injEq] at h
      subst h
      simpa using ha

theorem collapse_chain :
    ∀ (l : JSStr) (b : Bool), List.Chain' notBothWs (collapseWsAux b l) := by
  intro l
  induction l with
  | nil => intro b; simp [collapseWsAux]
  | cons a rest ih =>
    intro b
    unfold collapseWsAux
    by_cases ha : isWsU a = true
    · rw [if_pos ha]
      cases b with
      | true => exact ih true
      | false =>
        rw [if_neg (by trivial)]
        cases hrest : collapseWsAux true rest with
        | nil => simp
        | cons d t =>
          rw [List.chain'_cons]
          refine ⟨?_, hrest ▸ ih true⟩
          intro ⟨_, hd⟩
          have := collapse_head_true rest d (by rw [hrest]; rfl)
          rw [this] at hd
          exact Bool.noConfusion hd
    · rw [if_neg ha]
      cases hrest : collapseWsAux false rest with
      | nil => simp
      | cons d t =>
        rw [List.chain'_cons]
        refine ⟨?_, hrest ▸ ih false⟩
        intro ⟨haw, _⟩
        exact ha haw

theorem collapseWsAux_true_eq_false {l : JSStr}
    (h : ∀ c, l.head? = some c → isWsU c = false) :
    collapseWsAux true l = collapseWsAux false l := by
  cases l with
  | nil => rfl
  | cons a rest =>
    have ha := h a rfl
    unfold collapseWsAux
    rw [if_neg (by simp [ha]), if_neg (by simp [ha])]

theorem collapse_id_of_canon :
    ∀ l : JSStr, (∀ c ∈ l, isWsU c = true → c = 32) → List.Chain' notBothWs l →
      collapseWs l = l := by
  intro l
  induction l with
  | nil => intro h1 h2; rfl
  | cons a rest ih =>
    intro hall hchain
    show collapseWsAux false (a :: rest) = a :: rest
    unfold collapseWsAux
    by_cases ha : isWsU a = true
    · have ha32 : a = 32 := hall a (List.mem_cons_self a rest) ha
      rw [if_pos ha, if_neg (by trivial)]
      have hhead : ∀ c, rest.head? = some c → isWsU c = false := by
        intro c hc
        cases rest with
        | nil => exact absurd hc (by simp)
        | cons d t =>
          simp only [List.head?_cons, Option.some.injEq] at hc
          rw [← hc]
          have hnb := (List.chain'_cons.mp hchain).1
          by_cases hd : isWsU d = true
          · exact absurd ⟨ha, hd⟩ hnb
          · simpa using hd
      rw [collapseWsAux_true_eq_false hhead]
      have htail : collapseWsAux false rest = rest :=
        ih (fun c hc hw => hall c (List.mem_cons_of_mem a hc) hw) hchain.tail
      rw [htail, ha32]
    · rw [if_neg ha]
      have htail : collapseWsAux false rest = rest :=
        ih (fun c hc hw => hall c (List.mem_cons_of_mem a hc) hw) hchain.tail
      rw [htail]

theorem trimStart_eq_self {l : JSStr}
    (h : ∀ c, l.head? = some c → isWsU c = false) : trimStartU l = l := by
  cases l with
  | nil => rfl
  | cons a rest =>
    have ha := h a rfl
    unfold trimStartU
    rw [List.dropWhile_cons_of_neg (by simp [ha])]

theorem trimEnd_eq_self {l : JSStr}
    (h : ∀ c, l.getLast? = some c → isWsU c = false) : trimEndU l = l := by
  unfold trimEndU
  have hr : l.reverse.dropWhile isWsU = l.reverse := by
    cases hrev : l.reverse with
    | nil => rfl
    | cons a rest =>
      have ha : l.getLast? = some a := by
        rw [← List.head?_reverse, hrev]
        rfl
      rw [List.dropWhile_cons_of_neg (by simp [h a ha])]
  rw [hr, List.reverse_reverse]

theorem trimU_head {l : JSStr} {c : Nat} (h : (trimU l).head? = some c) :
    isWsU c = false := by
  obtain ⟨t, ht⟩ := trimEnd_prefixOfOrig (trimStartU l)
  have h2 : (trimEndU (trimStartU l)).head? = some c := h
  have hh : (trimStartU l).head? = some c := by
    rw [← ht, List.head?_append, h2]
    rfl
  exact head?_dropWhile_not isWsU l c hh

theorem trimU_getLast {l : JSStr} {c : Nat} (h : (trimU l).getLast? = some c) :
    isWsU c = false := by
  unfold trimU trimEndU at h
  rw [← List.head?_reverse, List.reverse_reverse] at h
  exact head?_dropWhile_not isWsU (trimStartU l).reverse c h

theorem trimU_trimmed_eq_self {l : JSStr}
    (hh : ∀ c, l.head? = some c → isWsU c = false)
    (hl : ∀ c, l.getLast? = some c → isWsU c = false) : trimU l = l := by
  unfold trimU
  rw [trimStart_eq_self hh, trimEnd_eq_self hl]

/-- Cleaning is the identity on a string that is already fully clean: no ESC,
no box or emoji units, all whitespace single spaces with non-whitespace
neighbours, and no leading or trailing whitespace. -/
theorem cleanCliOutput_fixed_point {y : JSStr} (hne : 27 ∉ y)
    (hbox : ∀ c ∈ y, isBoxU c = false) (hemoji : ∀ c ∈ y, isEmojiU c = false)
    (h32 : ∀ c ∈ y, isWsU c = true → c = 32) (hch : List.Chain' notBothWs y)
    (hh : ∀ c, y.head? = some c → isWsU c = false)
    (hl : ∀ c, y.getLast? = some c → isWsU c = false) :
    cleanCliOutput y = y := by
  by_cases hy0 : y = []
  · subst hy0; rfl
  · unfold cleanCliOutput
    rw [if_neg hy0, ansiStrip_no_esc hne, boxStrip_no_box hbox,
      emojiStrip_no_emoji hemoji, collapse_id_of_canon y h32 hch]
    exact trimU_trimmed_eq_self hh hl

def c5Input : JSStr := [27, 91, 51, 49, 0x2502, 109]

/-- C5 counterexample: the input `ESC [ 3 1 │ m` is not an ANSI escape (the
box character breaks the parameter run), but removing the box character glues
one together, so the first pass leaves `ESC [ 3 1 m` and the second pass
deletes it — cleaning is not idempotent. -/
theorem cleanCliOutput_not_idempotent :
    cleanCliOutput c5Input = [27, 91, 51, 49, 109] ∧
    cleanCliOutput (cleanCliOutput c5Input) = [] ∧
    cleanCliOutput (cleanCliOutput c5Input) ≠ cleanCliOutput c5Input := by
  exact ⟨by decide, by decide, by decide⟩

/-- C5 amended: cleaning is idempotent on every input whose cleaned result
contains no ESC code unit (27) — the non-idempotence arises exactly when a
removal creates a new ANSI escape sequence out of previously separated
pieces. -/
theorem cleanCliOutput_idempotent_of_no_esc (x : JSStr)
    (h : 27 ∉ cleanCliOutput x) :
    cleanCliOutput (cleanCliOutput x) = cleanCliOutput x := by
  by_cases hx : x = []
  · subst hx
    rfl
  · have hy : cleanCliOutput x =
        trimU (collapseWs (emojiStrip (boxStrip (ansiStrip x)))) := by
      unfold cleanCliOutput
      rw [if_neg hx]
    have hmem : ∀ c ∈ cleanCliOutput x, isBoxU c = false ∧ isEmojiU c = false := by
      intro c hc
      rw [hy] at hc
      have hc2 := mem_trimU hc
      rcases mem_collapseWsAux _ false c hc2 with h32c | hc3
      · subst h32c
        exact ⟨by decide, by decide⟩
      · have he : isEmojiU c = false := by
          have hf := List.mem_filter.mp hc3
          simpa using hf.2
        have hb : isBoxU c = false := by
          have hf := List.mem_filter.mp (List.mem_filter.mp hc3).1
          simpa using hf.2
        exact ⟨hb, he⟩
    apply cleanCliOutput_fixed_point h (fun c hc => (hmem c hc).1)
      (fun c hc => (hmem c hc).2)
    · intro c hc hw
      rw [hy] at hc
      exact collapse_allWs32 _ false c (mem_trimU hc) hw
    · rw [hy]
      have h1 := collapse_chain (emojiStrip (boxStrip (ansiStrip x))) false
      have h2 := h1.suffix (trimStart_suffix _)
      exact h2.prefix (trimEnd_prefixOfOrig _)
    · intro c hc
      rw [hy] at hc
      exact trimU_head hc
    · intro c hc
      rw [hy] at hc
      exact trimU_getLast hc

theorem cleanCliOutput_idempotent_of_no_esc_witness :
    cleanCliOutput (cleanCliOutput (strU "  tag: master  done ")) =
      cleanCliOutput (strU "  tag: master  done ") :=
  cleanCliOutput_idempotent_of_no_esc (strU "  tag: master  done ") (by decide)

end TaskMaster
